import Mathlib

/-!
Verification of the brochure generator's compositing and imposition core
(`brochure_generator.py`) against its natural-language specification.

The Python source is shallowly embedded: pure functions become Lean
functions, PIL images become finite pixel grids represented as functions
from integer coordinates to colors, and external collaborators (PIL's
rotation resampler, font metrics, image decoding, the filesystem) are
modelled as an explicit record of collaborator functions that every
renderer takes as a parameter.  Machine floats are modelled as rationals;
Python `int(...)` truncation and `//` floor division are modelled
explicitly.
-/

namespace Brochure

/-! ## Python numeric primitives -/

/-- Python `int(q)` on a real value: truncation toward zero. -/
def pyInt (q : ℚ) : ℤ := if 0 ≤ q then ⌊q⌋ else ⌈q⌉

/-- Python `a // b` (floor division) on integers. -/
def pyFloorDiv (a b : ℤ) : ℤ := Int.fdiv a b

theorem pyInt_of_nonneg {q : ℚ} (h : 0 ≤ q) : pyInt q = ⌊q⌋ := if_pos h

theorem pyInt_intCast (n : ℤ) : pyInt (n : ℚ) = n := by
  unfold pyInt
  rcases le_or_lt 0 ((n : ℚ)) with h | h
  · rw [if_pos h, Int.floor_intCast]
  · rw [if_neg (not_le.mpr h), Int.ceil_intCast]

/-- Evaluation helper: identify `pyInt q` on a nonnegative rational from
floor bounds, so concrete instances can be discharged by `norm_num`. -/
theorem pyInt_eq_of_nonneg {q : ℚ} {n : ℤ} (h0 : 0 ≤ q)
    (h1 : (n : ℚ) ≤ q) (h2 : q < n + 1) : pyInt q = n := by
  rw [pyInt_of_nonneg h0]
  exact Int.floor_eq_iff.mpr ⟨h1, by exact_mod_cast h2⟩

/-- Percentage-to-pixel conversion as the source performs it everywhere:
`int(value / 100 * extent)` (truncation, lines 652-655, 717-719, 769-771). -/
def pctPx (value : ℚ) (extent : ℕ) : ℤ := pyInt (value / 100 * extent)

/-- Modelled from the spec (§4.1): `percent_to_px(value, extent) ->
round(value / 100 * extent)`, i.e. rounding to the nearest integer.
Stated only to compare against the code's `pctPx`. -/
def pctPxSpec (value : ℚ) (extent : ℕ) : ℤ := ⌊value / 100 * extent + 1 / 2⌋

/-! ## Hex color parsing (`BrochureRenderer.hex_to_rgb`, lines 562-567) -/

/-- Value of one hex digit, as accepted by Python `int(s, 16)` for a
digit character. -/
def hexDigitVal (c : Char) : Option ℕ :=
  if '0' ≤ c ∧ c ≤ '9' then some (c.toNat - 48)
  else if 'a' ≤ c ∧ c ≤ 'f' then some (c.toNat - 87)
  else if 'A' ≤ c ∧ c ≤ 'F' then some (c.toNat - 55)
  else none

/-- Python `int(s, 16)` on a slice consisting of hex digits: fails on the
empty string or on a character that is not a hex digit.  (Exotic accepted
forms of Python `int` such as surrounding whitespace or a sign are not
modelled; every theorem below quantifies only over inputs on which this
model and Python `int` agree.) -/
def int16 (l : List Char) : Option ℕ :=
  if l = [] then none
  else l.foldlM (fun acc c => (hexDigitVal c).map (fun d => 16 * acc + d)) 0

/-- `hex_color.lstrip('#')`: drop every leading `'#'`. -/
def lstripHash (l : List Char) : List Char := l.dropWhile (· = '#')

/-- The 3-digit expansion `''.join([c*2 for c in hex_color])` applied when
the stripped string has length 3. -/
def expand3 (l : List Char) : List Char :=
  if l.length = 3 then l.flatMap (fun c => [c, c]) else l

/-- `hex_to_rgb` (lines 562-567): strip `'#'`, expand a length-3 string,
then parse the three slices `[0:2]`, `[2:4]`, `[4:6]`.  `none` models the
`ValueError` that `int` raises (surfaced as the spec's `InvalidColor`). -/
def hex_to_rgb (s : String) : Option (ℤ × ℤ × ℤ) := do
  let l := expand3 (lstripHash s.data)
  let r ← int16 ((l.drop 0).take 2)
  let g ← int16 ((l.drop 2).take 2)
  let b ← int16 ((l.drop 4).take 2)
  pure ((r : ℤ), (g : ℤ), (b : ℤ))

/-- `hex_to_rgba` (lines 569-572): `(*rgb, int(alpha * 255))`. -/
def hex_to_rgba (s : String) (alpha : ℚ) : Option ((ℤ × ℤ × ℤ) × ℤ) :=
  (hex_to_rgb s).map (fun c => (c, pyInt (alpha * 255)))

/-! ## Booklet imposition (`BookletImposition`, lines 914-982) -/

/-- The generic fallback loop `for i in range(0, page_count, 2)`
(lines 943-951): `range(0, n, 2)` enumerates `2*k` for `k < ⌈n/2⌉`. -/
def seqPairs (n : ℕ) : List (ℤ × ℤ) :=
  (List.range ((n + 1) / 2)).map
    (fun k => ((2 * k : ℕ), if 2 * k + 1 < n then ((2 * k + 1 : ℕ) : ℤ) else -1))

/-- `BookletImposition.get_imposition_order` (lines 914-951). -/
def get_imposition_order (page_count : ℕ) : List (ℤ × ℤ) :=
  if page_count = 1 then [(0, -1)]
  else if page_count = 2 then [(1, 0)]
  else if page_count = 4 then [(3, 0), (1, 2)]
  else if page_count = 8 then [(7, 0), (1, 6), (5, 2), (3, 4)]
  else seqPairs page_count

/-- The generic fallback loop of `get_spread_pairs` (lines 975-982),
including the f-string labels. -/
def seqSpreads (n : ℕ) : List (ℤ × ℤ × String) :=
  (List.range ((n + 1) / 2)).map
    (fun k =>
      if 2 * k + 1 < n then
        ((2 * k : ℕ), ((2 * k + 1 : ℕ) : ℤ), s!"Pages {2 * k + 1}-{2 * k + 2}")
      else ((2 * k : ℕ), -1, s!"Page {2 * k + 1}"))

/-- `BookletImposition.get_spread_pairs` (lines 953-982). -/
def get_spread_pairs (page_count : ℕ) : List (ℤ × ℤ × String) :=
  if page_count = 1 then [(0, -1, "Single Page")]
  else if page_count = 2 then [(0, 1, "Front & Back")]
  else if page_count = 4 then
    [(3, 0, "Back Cover & Front Cover"), (1, 2, "Inside Spread")]
  else if page_count = 8 then
    [(7, 0, "Back Cover & Front Cover"), (1, 2, "First Inside Spread"),
     (3, 4, "Center Spread"), (5, 6, "Last Inside Spread")]
  else seqSpreads page_count

/-- The non-negative page indices mentioned by one imposition pair. -/
def pairIdxs (p : ℤ × ℤ) : List ℤ := [p.1, p.2].filter (fun v => 0 ≤ v)

/-! ## Document model (dataclasses, lines 67-136) -/

/-- `TextElement` (lines 67-81). -/
structure TextElement where
  text : List Char
  x : ℚ
  y : ℚ
  font_family : String := "Arial"
  font_size : ℤ := 24
  font_color : String := "#000000"
  bold : Bool := false
  italic : Bool := false
  alignment : String := "center"
  max_width : ℚ := 90
  rotation : ℚ := 0
  layer_index : ℤ := 0

/-- `ImageElement` (lines 84-96).  `image_data` is an abstract byte buffer. -/
structure ImageElement where
  image_path : Option String := none
  image_data : Option (List ℕ) := none
  x : ℚ := 50
  y : ℚ := 50
  width : ℚ := 50
  height : ℚ := 50
  opacity : ℚ := 1
  rotation : ℚ := 0
  fit_mode : String := "cover"
  layer_index : ℤ := 0

/-- `ShapeElement` (lines 99-112). -/
structure ShapeElement where
  shape_type : String
  x : ℚ := 50
  y : ℚ := 50
  width : ℚ := 20
  height : ℚ := 20
  fill_color : String := "#3498db"
  stroke_color : String := "#2980b9"
  stroke_width : ℤ := 2
  opacity : ℚ := 1
  rotation : ℚ := 0
  layer_index : ℤ := 0

/-- `PageData` (lines 115-123). -/
structure PageData where
  background_color : String := "#ffffff"
  background_gradient : Option (String × String × String) := none
  background_image : Option ImageElement := none
  text_elements : List TextElement := []
  image_elements : List ImageElement := []
  shape_elements : List ShapeElement := []

/-- A freshly constructed `PageData()` (all defaults). -/
def blankPage : PageData := {}

/-- `BrochureData.__post_init__` (lines 133-136): append blank pages while
`len(pages) < page_count`; never truncates. -/
def postInit (page_count : ℤ) (pages : List PageData) : List PageData :=
  pages ++ List.replicate (page_count - pages.length).toNat blankPage

/-- `BrochureGeneratorApp._on_page_count_change` (lines 1584-1599): append
blank pages while short, pop from the end while long. -/
def onPageCountChange (new_count : ℕ) (pages : List PageData) : List PageData :=
  if pages.length ≤ new_count then
    pages ++ List.replicate (new_count - pages.length) blankPage
  else pages.take new_count

/-! ## Raster images and compositing -/

/-- An RGB color, one integer per channel. -/
abbrev Color := ℤ × ℤ × ℤ

/-- A color together with an alpha channel. -/
abbrev RGBA := Color × ℤ

/-- A flat RGB raster image: a pixel grid of the recorded size.  The pixel
function is total; only coordinates inside the recorded bounds are ever
observed by the theorems below. -/
structure Img where
  w : ℤ
  h : ℤ
  pix : ℤ → ℤ → Color

/-- An RGBA raster buffer (a PIL `RGBA` image). -/
structure BufRGBA where
  w : ℤ
  h : ℤ
  pix : ℤ → ℤ → RGBA

/-- The fully transparent pixel `(0, 0, 0, 0)`. -/
def clearRGBA : RGBA := ((0, 0, 0), 0)

/-- Per-channel alpha-over mix used by `Image.paste` with an RGBA mask;
exact at mask 0 (keep destination) and mask 255 (take source). -/
def mixChan (d s a : ℤ) : ℤ := (s * a + d * (255 - a)).ediv 255

/-- Alpha-over blending of a source color over a destination color. -/
def blend (d : Color) (s : Color) (a : ℤ) : Color :=
  (mixChan d.1 s.1 a, mixChan d.2.1 s.2.1 a, mixChan d.2.2 s.2.2 a)

/-- `img.paste(src, (ox, oy), src)`: composite `src` onto `dst` using the
source's own alpha channel as the mask. -/
def paste (dst : Img) (src : BufRGBA) (ox oy : ℤ) : Img :=
  ⟨dst.w, dst.h, fun x y =>
    if ox ≤ x ∧ x < ox + src.w ∧ oy ≤ y ∧ y < oy + src.h then
      let p := src.pix (x - ox) (y - oy)
      blend (dst.pix x y) p.1 p.2
    else dst.pix x y⟩

/-- External collaborators of the compositor: PIL's resampling rotation,
LANCZOS scaling, glyph rasterization and font metrics, image decoding, and
the filesystem.  Every renderer takes them as an explicit parameter and
every theorem below quantifies over all of them. -/
structure Collab where
  /-- `rotate(-deg, BICUBIC, expand=False)` content (size preserved). -/
  rotateKeep : ℚ → BufRGBA → BufRGBA
  /-- `rotate(-deg, BICUBIC, expand=True)` (size may change). -/
  rotateExpand : ℚ → BufRGBA → BufRGBA
  /-- Pixels drawn by `draw.ellipse` / `draw.polygon` / `draw.line` for the
  non-rectangle shape kinds: element, fill, outline, buffer size, pixel. -/
  drawShape : ShapeElement → Option RGBA → Option RGBA → ℤ → ℤ → ℤ → ℤ → RGBA
  /-- Glyph coverage of one rendered text line at an offset from its
  draw position. -/
  ink : TextElement → List Char → ℤ → ℤ → Bool
  /-- `draw.textbbox` width and height of one line for the element's font. -/
  measure : TextElement → List Char → ℤ × ℤ
  /-- `os.path.exists`. -/
  pathExists : String → Bool
  /-- `Image.open` on a file path (`none` = raised). -/
  openPath : String → Option BufRGBA
  /-- `Image.open(io.BytesIO(data))` (`none` = raised). -/
  decode : List ℕ → Option BufRGBA
  /-- Content of a LANCZOS `resize` to a requested size. -/
  resizePix : BufRGBA → ℤ → ℤ → ℤ → ℤ → RGBA
  /-- `Image.thumbnail` (aspect-preserving shrink). -/
  thumbnail : BufRGBA → ℤ → ℤ → BufRGBA

/-- `src.resize((w, h))`: PIL guarantees the result has the requested
size; the resampled content comes from the collaborator. -/
def resizeTo (C : Collab) (i : BufRGBA) (w h : ℤ) : BufRGBA :=
  ⟨w, h, fun x y => C.resizePix i w h x y⟩

/-- `rotate(..., expand=False)` keeps the buffer size. -/
def rotateSameSize (C : Collab) (deg : ℚ) (i : BufRGBA) : BufRGBA :=
  ⟨i.w, i.h, fun x y => (C.rotateKeep deg i).pix x y⟩

/-! ## Gradient backgrounds (`create_gradient`, lines 574-605) -/

/-- One channel of `int(c1 + (c2 - c1) * ratio)`. -/
def lerpChan (a b : ℤ) (t : ℚ) : ℤ := pyInt ((a : ℚ) + ((b : ℚ) - (a : ℚ)) * t)

/-- All three channels of the gradient interpolation. -/
def lerpColor (c1 c2 : Color) (t : ℚ) : Color :=
  (lerpChan c1.1 c2.1 t, lerpChan c1.2.1 c2.2.1 t, lerpChan c1.2.2 c2.2.2 t)

/-- The pixel grid written by the loops of `create_gradient`
(lines 582-603).  An unrecognized direction leaves the freshly created
image untouched, i.e. black. -/
def gradientImg (c1 c2 : Color) (direction : String) (W H : ℕ) : Img :=
  ⟨W, H, fun px py =>
    if direction = "vertical" then lerpColor c1 c2 ((py : ℚ) / (H : ℚ))
    else if direction = "horizontal" then lerpColor c1 c2 ((px : ℚ) / (W : ℚ))
    else if direction = "diagonal" then
      lerpColor c1 c2 (((px : ℚ) + (py : ℚ)) / ((W : ℚ) + (H : ℚ)))
    else (0, 0, 0)⟩

/-- `create_gradient` (lines 574-605): parse both colors, then fill. -/
def create_gradient (W H : ℕ) (c1s c2s direction : String) : Option Img := do
  let c1 ← hex_to_rgb c1s
  let c2 ← hex_to_rgb c2s
  pure (gradientImg c1 c2 direction W H)

/-! ## Shape rendering (`_render_shape_to_image`, lines 650-701) -/

/-- The temporary RGBA buffer after the `draw` calls of
`_render_shape_to_image`: a rectangle is drawn exactly (PIL's
`draw.rectangle` includes both corners; a positive-width outline occupies
an inward border band painted over the fill); the other shape kinds are
rasterized by the collaborator. -/
def shapeTemp (C : Collab) (s : ShapeElement) (fill outline : Option RGBA)
    (w h tW tH : ℤ) : BufRGBA :=
  if s.shape_type = "rectangle" then
    ⟨tW, tH, fun tx ty =>
      let cx := pyFloorDiv tW 2
      let cy := pyFloorDiv tH 2
      let x1 := cx - pyFloorDiv w 2
      let x2 := cx + pyFloorDiv w 2
      let y1 := cy - pyFloorDiv h 2
      let y2 := cy + pyFloorDiv h 2
      if 0 ≤ tx ∧ tx < tW ∧ 0 ≤ ty ∧ ty < tH ∧
          x1 ≤ tx ∧ tx ≤ x2 ∧ y1 ≤ ty ∧ ty ≤ y2 then
        match outline with
        | some o =>
          if tx < x1 + s.stroke_width ∨ x2 - s.stroke_width < tx ∨
              ty < y1 + s.stroke_width ∨ y2 - s.stroke_width < ty then o
          else fill.getD clearRGBA
        | none => fill.getD clearRGBA
      else clearRGBA⟩
  else ⟨tW, tH, fun tx ty => C.drawShape s fill outline tW tH tx ty⟩

/-- `_render_shape_to_image` (lines 650-701).  `none` models the
uncaught `ValueError` from a malformed hex color. -/
def renderShape (C : Collab) (W H : ℕ) (img : Img) (s : ShapeElement) :
    Option Img := do
  let x := pctPx s.x W
  let y := pctPx s.y H
  let w := pctPx s.width W
  let h := pctPx s.height H
  let padding := max w h
  let tW := w + padding * 2
  let tH := h + padding * 2
  let fill ← if s.fill_color = "transparent" then pure none
             else (hex_to_rgba s.fill_color s.opacity).map some
  let outline ← if 0 < s.stroke_width then
                  (hex_to_rgba s.stroke_color s.opacity).map some
                else pure (none : Option RGBA)
  let temp := shapeTemp C s fill outline w h tW tH
  let temp := if s.rotation ≠ 0 then rotateSameSize C s.rotation temp else temp
  pure (paste img temp (x - pyFloorDiv tW 2) (y - pyFloorDiv tH 2))

/-! ## Image-element rendering (`_render_image_element`, lines 703-763) -/

/-- Outcome of resolving an image element's source. -/
inductive SourceRes where
  | noSource
  | failed
  | ok (i : BufRGBA)

/-- `image_elem.image_path and os.path.exists(...)` (truthiness of the
path plus an existence check). -/
def pathOk (C : Collab) (e : ImageElement) : Option String :=
  match e.image_path with
  | some p => if p ≠ "" ∧ C.pathExists p then some p else none
  | none => none

/-- Truthiness of `image_elem.image_data`. -/
def dataOk (e : ImageElement) : Option (List ℕ) :=
  match e.image_data with
  | some d => if d ≠ [] then some d else none
  | none => none

/-- Lines 706-712: open from the path if usable, else decode the in-memory
data, else report that there is no source at all. -/
def loadSource (C : Collab) (e : ImageElement) : SourceRes :=
  match pathOk C e with
  | some p =>
    match C.openPath p with
    | some i => .ok i
    | none => .failed
  | none =>
    match dataOk e with
    | some d =>
      match C.decode d with
      | some i => .ok i
      | none => .failed
    | none => .noSource

/-- `crop((l, t, l+w, t+h))`: PIL pads out-of-bounds regions with
transparent black. -/
def cropBuf (i : BufRGBA) (l t w h : ℤ) : BufRGBA :=
  ⟨w, h, fun x y =>
    if 0 ≤ l + x ∧ l + x < i.w ∧ 0 ≤ t + y ∧ t + y < i.h then
      i.pix (l + x) (t + y)
    else clearRGBA⟩

/-- Lines 721-740: resize per fit mode.  `none` models the
`ZeroDivisionError` paths of the aspect-ratio arithmetic in `cover`
mode. -/
def fitResize (C : Collab) (e : ImageElement) (tw th : ℤ)
    (src : BufRGBA) : Option BufRGBA :=
  if e.fit_mode = "stretch" then some (resizeTo C src tw th)
  else if e.fit_mode = "contain" then some (C.thumbnail src tw th)
  else
    if src.h = 0 ∨ th = 0 then none
    else
      let imgRat : ℚ := (src.w : ℚ) / (src.h : ℚ)
      let targetRat : ℚ := (tw : ℚ) / (th : ℚ)
      if imgRat > targetRat then
        let nh := th
        let nw := pyInt ((nh : ℚ) * imgRat)
        let r := resizeTo C src nw nh
        some (cropBuf r (pyFloorDiv (r.w - tw) 2) (pyFloorDiv (r.h - th) 2) tw th)
      else
        if imgRat = 0 then none
        else
          let nw := tw
          let nh := pyInt ((nw : ℚ) / imgRat)
          let r := resizeTo C src nw nh
          some (cropBuf r (pyFloorDiv (r.w - tw) 2) (pyFloorDiv (r.h - th) 2) tw th)

/-- Lines 742-746: scale the alpha channel when `opacity < 1.0`. -/
def applyOpacity (e : ImageElement) (i : BufRGBA) : BufRGBA :=
  if e.opacity < 1 then
    ⟨i.w, i.h, fun x y =>
      let p := i.pix x y
      (p.1, pyInt ((p.2 : ℚ) * e.opacity))⟩
  else i

/-- The body of the `try` block after the source has been resolved
(lines 714-758); `none` models any raised exception. -/
def renderImageCore (C : Collab) (W H : ℕ) (img : Img) (e : ImageElement)
    (src : BufRGBA) : Option Img := do
  let tw := pctPx e.width W
  let th := pctPx e.height H
  let r ← fitResize C e tw th src
  let r := applyOpacity e r
  let r := if e.rotation ≠ 0 then C.rotateExpand e.rotation r else r
  let px := pctPx e.x W - pyFloorDiv r.w 2
  let py := pctPx e.y H - pyFloorDiv r.h 2
  pure (paste img r px py)

/-- `_render_image_element` (lines 703-763): the whole body sits in a
`try/except` that logs and returns the accumulated image, so a missing
source or any raised exception leaves the image unchanged. -/
def renderImageElem (C : Collab) (W H : ℕ) (img : Img) (e : ImageElement) :
    Img :=
  match loadSource C e with
  | .noSource => img
  | .failed => img
  | .ok src => (renderImageCore C W H img e src).getD img

/-! ## Text rendering (`_render_text_to_image`, lines 765-825) -/

/-- Python `text.split('\n')`. -/
def splitNL : List Char → List (List Char)
  | [] => [[]]
  | c :: rest =>
    if c = '\n' then [] :: splitNL rest
    else
      match splitNL rest with
      | [] => [[c]]
      | g :: gs => (c :: g) :: gs

/-- Placement of one rendered text line inside the temporary buffer:
draw position `(tx, ty)` and measured width and height. -/
structure LinePlace where
  line : List Char
  tx : ℤ
  ty : ℤ
  lw : ℤ
  lh : ℤ

/-- The per-line placement loop (lines 797-811): `current_y` starts at the
padding (20) and advances by each line's height plus the fixed 5-pixel
gap; `text_x` follows the element's alignment inside the buffer. -/
def mkPlaces (meas : List Char → ℤ × ℤ) (alignment : String) (tempW : ℤ) :
    List (List Char) → ℤ → List LinePlace
  | [], _ => []
  | l :: rest, cy =>
    let m := meas l
    let tx := if alignment = "center" then pyFloorDiv (tempW - m.1) 2
              else if alignment = "right" then tempW - 20 - m.1
              else 20
    ⟨l, tx, cy, m.1, m.2⟩ :: mkPlaces meas alignment tempW rest (cy + m.2 + 5)

/-- All layout quantities computed by `_render_text_to_image` before any
pixel is drawn (lines 769-811). -/
structure TextLayout where
  x : ℤ
  y : ℤ
  maxW : ℤ
  totalH : ℤ
  tempW : ℤ
  tempH : ℤ
  places : List LinePlace

/-- The layout arithmetic of `_render_text_to_image` (lines 769-811):
position from percentages, measured line sizes, block size
`sum(heights) + (n-1)*5` with 20 pixels of padding on every side, and the
per-line draw positions. -/
def textLayout (meas : List Char → ℤ × ℤ) (W H : ℕ) (e : TextElement) :
    TextLayout :=
  let x := pctPx e.x W
  let y := pctPx e.y H
  let lines := splitNL e.text
  let ms := lines.map meas
  let totalH := (ms.map Prod.snd).sum + ((lines.length : ℤ) - 1) * 5
  let maxW := ((ms.map Prod.fst).max?).getD 0
  let tempW := maxW + 40
  let tempH := totalH + 40
  ⟨x, y, maxW, totalH, tempW, tempH, mkPlaces meas e.alignment tempW lines 20⟩

/-- Default placeholder used when indexing line placements. -/
def dfltPlace : LinePlace := ⟨[], 0, 0, 0, 0⟩

/-- The horizontal paste position of the unrotated text buffer
(`paste_x = x - text_img.width // 2`, line 819). -/
def layoutPasteX (L : TextLayout) : ℤ := L.x - pyFloorDiv L.tempW 2

/-- The vertical paste position of the unrotated text buffer
(`paste_y = y - text_img.height // 2`, line 820). -/
def layoutPasteY (L : TextLayout) : ℤ := L.y - pyFloorDiv L.tempH 2

/-- `_render_text_to_image` (lines 765-825): lay the lines out, draw the
glyphs (collaborator coverage) in the parsed font color into a transparent
buffer, rotate if requested, and paste centered at the element's pixel
position. -/
def renderText (C : Collab) (W H : ℕ) (img : Img) (e : TextElement) :
    Option Img := do
  let L := textLayout (C.measure e) W H e
  let fill ← hex_to_rgb e.font_color
  let timg : BufRGBA := ⟨L.tempW, L.tempH, fun tx ty =>
    if L.places.any (fun pl => C.ink e pl.line (tx - pl.tx) (ty - pl.ty)) then
      (fill, 255)
    else clearRGBA⟩
  let timg := if e.rotation ≠ 0 then C.rotateExpand e.rotation timg else timg
  pure (paste img timg (L.x - pyFloorDiv timg.w 2) (L.y - pyFloorDiv timg.h 2))

/-! ## Page rendering (`render_page`, lines 607-648) -/

/-- One entry of the combined `all_elements` list. -/
inductive Elem where
  | shape (s : ShapeElement)
  | image (i : ImageElement)
  | text (t : TextElement)

/-- The `layer_idx` tag attached to each gathered element. -/
def layerOf : Elem → ℤ
  | .shape s => s.layer_index
  | .image i => i.layer_index
  | .text t => t.layer_index

/-- The sort key relation of `all_elements.sort(key=lambda x: x[2])`. -/
def layerLE (a b : Elem) : Prop := layerOf a ≤ layerOf b

instance : DecidableRel layerLE := fun a b => Int.decLe (layerOf a) (layerOf b)

instance : IsTotal Elem layerLE := ⟨fun a b => le_total (layerOf a) (layerOf b)⟩

instance : IsTrans Elem layerLE := ⟨fun _ _ _ h1 h2 => le_trans h1 h2⟩

/-- Lines 619-634: gather shapes, then images, then text elements. -/
def gather (p : PageData) : List Elem :=
  p.shape_elements.map .shape ++ p.image_elements.map .image
    ++ p.text_elements.map .text

/-- Line 637: the stable ascending sort by `layer_index` (Python's
`list.sort` is stable; a stable sort is modelled by insertion sort, whose
output any stable sort determines uniquely). -/
def renderOrder (p : PageData) : List Elem :=
  List.insertionSort layerLE (gather p)

/-- Lines 640-646: dispatch one element to its renderer. -/
def renderElem (C : Collab) (W H : ℕ) (img : Img) : Elem → Option Img
  | .shape s => renderShape C W H img s
  | .image i => some (renderImageElem C W H img i)
  | .text t => renderText C W H img t

/-- `render_page` (lines 607-648): build the background (gradient or flat
fill), then composite every element in sorted order.  `none` models an
uncaught exception (a malformed hex color). -/
def render_page (C : Collab) (W H : ℕ) (p : PageData) : Option Img := do
  let base ← match p.background_gradient with
    | some g => create_gradient W H g.1 g.2.1 g.2.2
    | none =>
      (hex_to_rgb p.background_color).map
        (fun c => (⟨(W : ℤ), (H : ℤ), fun _ _ => c⟩ : Img))
  (renderOrder p).foldlM (renderElem C W H) base

/-- The pixels covered by the fill of an unrotated rectangle element, in
page coordinates: the offsets derived from `_render_shape_to_image`
(center at the element's pixel position, half-extents `w//2` and `h//2`,
both borders included as PIL's `draw.rectangle` does). -/
def rectRegion (W H : ℕ) (s : ShapeElement) (px py : ℤ) : Prop :=
  1 ≤ pctPx s.width W ∧ 1 ≤ pctPx s.height H ∧
  pctPx s.x W - pyFloorDiv (pctPx s.width W) 2 ≤ px ∧
  px ≤ pctPx s.x W + pyFloorDiv (pctPx s.width W) 2 ∧
  pctPx s.y H - pyFloorDiv (pctPx s.height H) 2 ≤ py ∧
  py ≤ pctPx s.y H + pyFloorDiv (pctPx s.height H) 2

/-- A concrete instantiation of the external collaborators (identity
rotation, no filesystem, fixed font metrics), used to exercise the
renderer on closed inputs. -/
def trivCollab : Collab where
  rotateKeep := fun _ i => i
  rotateExpand := fun _ i => i
  drawShape := fun _ _ _ _ _ _ _ => clearRGBA
  ink := fun _ _ _ _ => false
  measure := fun _ l => ((10 * l.length : ℤ), 12)
  pathExists := fun _ => false
  openPath := fun _ => none
  decode := fun _ => none
  resizePix := fun _ _ _ _ _ => clearRGBA
  thumbnail := fun i _ _ => i

/-! ## Helper lemmas: the generic imposition fallback -/

theorem seqPairs_length (n : ℕ) : (seqPairs n).length = (n + 1) / 2 := by
  simp [seqPairs]

theorem seqSpreads_length (n : ℕ) : (seqSpreads n).length = (n + 1) / 2 := by
  simp [seqSpreads]

theorem seqPairs_getD (n k : ℕ) (hk : k < (n + 1) / 2) :
    (seqPairs n).getD k (0, 0) =
      (((2 * k : ℕ) : ℤ), if 2 * k + 1 < n then ((2 * k + 1 : ℕ) : ℤ) else -1) := by
  rw [seqPairs, List.getD_eq_getElem?_getD, List.getElem?_map,
    List.getElem?_range hk]
  rfl

theorem seqSpreads_getD_pair (n k : ℕ) (hk : k < (n + 1) / 2) :
    (((seqSpreads n).getD k (0, 0, "")).1, ((seqSpreads n).getD k (0, 0, "")).2.1)
      = (((2 * k : ℕ) : ℤ), if 2 * k + 1 < n then ((2 * k + 1 : ℕ) : ℤ) else -1) := by
  rw [seqSpreads, List.getD_eq_getElem?_getD, List.getElem?_map,
    List.getElem?_range hk]
  by_cases h : 2 * k + 1 < n <;> simp [h]

theorem get_imposition_order_of_other (n : ℕ)
    (hn : ¬(n = 1 ∨ n = 2 ∨ n = 4 ∨ n = 8)) :
    get_imposition_order n = seqPairs n := by
  push_neg at hn
  obtain ⟨h1, h2, h4, h8⟩ := hn
  simp [get_imposition_order, h1, h2, h4, h8]

theorem get_spread_pairs_of_other (n : ℕ)
    (hn : ¬(n = 1 ∨ n = 2 ∨ n = 4 ∨ n = 8)) :
    get_spread_pairs n = seqSpreads n := by
  push_neg at hn
  obtain ⟨h1, h2, h4, h8⟩ := hn
  simp [get_spread_pairs, h1, h2, h4, h8]

/-- Casting a list of page numbers to signed page indices. -/
def natsToInts (l : List ℕ) : List ℤ := l.map Int.ofNat

/-- Entries collected by the generic fallback, one window at a time:
starting at loop index `k` with `j` iterations left, the non-negative
entries are exactly `2*k, 2*k+1, …, n-1`. -/
theorem seqPairs_window (n : ℕ) :
    ∀ (j k : ℕ), k + j = (n + 1) / 2 →
      (((List.range' k j).map
          (fun k => ((((2 * k : ℕ) : ℤ)), if 2 * k + 1 < n then ((2 * k + 1 : ℕ) : ℤ) else -1))).flatMap
        pairIdxs)
        = natsToInts (List.range' (2 * k) (n - 2 * k)) := by
  intro j
  induction j with
  | zero =>
    intro k hk
    have hn2 : n - 2 * k = 0 := by omega
    simp [hn2, natsToInts]
  | succ j ih =>
    intro k hk
    rw [List.range'_succ, List.map_cons, List.flatMap_cons, ih (k + 1) (by omega)]
    have hkn : 2 * k < n := by omega
    by_cases h : 2 * k + 1 < n
    · have e1 : pairIdxs (((2 * k : ℕ) : ℤ),
          if 2 * k + 1 < n then ((2 * k + 1 : ℕ) : ℤ) else -1)
          = [((2 * k : ℕ) : ℤ), ((2 * k + 1 : ℕ) : ℤ)] := by
        simp [pairIdxs, h]
        all_goals omega
      rw [e1, show n - 2 * k = n - (2 * k + 2) + 1 + 1 from by omega,
        List.range'_succ, List.range'_succ,
        show 2 * (k + 1) = 2 * k + 1 + 1 from by omega,
        show n - (2 * k + 1 + 1) = n - (2 * k + 2) from by omega]
      simp [natsToInts]
    · have e1 : pairIdxs (((2 * k : ℕ) : ℤ),
          if 2 * k + 1 < n then ((2 * k + 1 : ℕ) : ℤ) else -1)
          = [((2 * k : ℕ) : ℤ)] := by
        simp [pairIdxs, h]
      rw [e1, show n - 2 * (k + 1) = 0 from by omega,
        show n - 2 * k = 0 + 1 from by omega, List.range'_succ]
      simp [natsToInts]

theorem seqPairs_entries (n : ℕ) :
    ((seqPairs n).flatMap pairIdxs) = natsToInts (List.range n) := by
  have h := seqPairs_window n ((n + 1) / 2) 0 (by omega)
  simp only [Nat.mul_zero, Nat.sub_zero] at h
  rw [seqPairs, List.range_eq_range', List.range_eq_range']
  exact h

theorem seqSpreads_project (n : ℕ) :
    (seqSpreads n).map (fun t => (t.1, t.2.1)) = seqPairs n := by
  rw [seqSpreads, seqPairs, List.map_map]
  refine List.map_congr_left ?_
  intro k _
  by_cases h : 2 * k + 1 < n <;> simp [h]

theorem seqSpreads_entries (n : ℕ) :
    ((seqSpreads n).flatMap (fun t => pairIdxs (t.1, t.2.1)))
      = natsToInts (List.range n) := by
  rw [← List.flatMap_map (fun t : ℤ × ℤ × String => ((t.1, t.2.1) : ℤ × ℤ))
      pairIdxs (seqSpreads n),
    seqSpreads_project n, seqPairs_entries n]

/-! ## Claims C1, C2, C10: the imposition engine -/

/-- C1: for every page_count in {1,2,4,8}, `get_imposition_order` returns
exactly the print-order pair list of the spec's 4.2 table, and
`get_spread_pairs` returns exactly the reading-order pairs with exactly
the spec's labels, in that order. -/
theorem C1_imposition_tables :
    get_imposition_order 1 = [(0, -1)] ∧
    get_imposition_order 2 = [(1, 0)] ∧
    get_imposition_order 4 = [(3, 0), (1, 2)] ∧
    get_imposition_order 8 = [(7, 0), (1, 6), (5, 2), (3, 4)] ∧
    get_spread_pairs 1 = [(0, -1, "Single Page")] ∧
    get_spread_pairs 2 = [(0, 1, "Front & Back")] ∧
    get_spread_pairs 4
      = [(3, 0, "Back Cover & Front Cover"), (1, 2, "Inside Spread")] ∧
    get_spread_pairs 8
      = [(7, 0, "Back Cover & Front Cover"), (1, 2, "First Inside Spread"),
         (3, 4, "Center Spread"), (5, 6, "Last Inside Spread")] := by
  refine ⟨?_, ?_, ?_, ?_, ?_, ?_, ?_, ?_⟩ <;> decide

/-- C2: for every positive integer n not in {1,2,4,8}, both
`get_imposition_order n` and `get_spread_pairs n` return (without any
error) exactly ⌈n/2⌉ pairs, pairing pages sequentially as
(0,1),(2,3),…, and the right element of the last pair equals -1 iff n is
odd. -/
theorem C2_generic_fallback (n : ℕ) (hpos : 0 < n)
    (hn : ¬(n = 1 ∨ n = 2 ∨ n = 4 ∨ n = 8)) :
    (get_imposition_order n).length = (n + 1) / 2 ∧
    (get_spread_pairs n).length = (n + 1) / 2 ∧
    (∀ k, k < (n + 1) / 2 →
      (get_imposition_order n).getD k (0, 0)
        = (((2 * k : ℕ) : ℤ), if 2 * k + 1 < n then ((2 * k + 1 : ℕ) : ℤ) else -1)) ∧
    (∀ k, k < (n + 1) / 2 →
      (((get_spread_pairs n).getD k (0, 0, "")).1,
          ((get_spread_pairs n).getD k (0, 0, "")).2.1)
        = (((2 * k : ℕ) : ℤ), if 2 * k + 1 < n then ((2 * k + 1 : ℕ) : ℤ) else -1)) ∧
    (((get_imposition_order n).getD ((n + 1) / 2 - 1) (0, 0)).2 = -1 ↔ Odd n) ∧
    (((get_spread_pairs n).getD ((n + 1) / 2 - 1) (0, 0, "")).2.1 = -1 ↔ Odd n) := by
  rw [get_imposition_order_of_other n hn, get_spread_pairs_of_other n hn]
  have hk : (n + 1) / 2 - 1 < (n + 1) / 2 := by omega
  refine ⟨seqPairs_length n, seqSpreads_length n,
    fun k hkk => seqPairs_getD n k hkk,
    fun k hkk => seqSpreads_getD_pair n k hkk, ?_, ?_⟩
  · rw [seqPairs_getD n _ hk, Nat.odd_iff]
    by_cases h : 2 * ((n + 1) / 2 - 1) + 1 < n
    · rw [if_pos h]
      constructor
      · intro he
        omega
      · intro hmod
        omega
    · rw [if_neg h]
      simp only [iff_true_intro rfl, true_iff]
      omega
  · have hp := congrArg Prod.snd (seqSpreads_getD_pair n ((n + 1) / 2 - 1) hk)
    dsimp only at hp
    rw [hp, Nat.odd_iff]
    by_cases h : 2 * ((n + 1) / 2 - 1) + 1 < n
    · rw [if_pos h]
      constructor
      · intro he
        omega
      · intro hmod
        omega
    · rw [if_neg h]
      simp only [iff_true_intro rfl, true_iff]
      omega

theorem C2_generic_fallback_witness :
    (get_imposition_order 6).length = (6 + 1) / 2 ∧
    (get_spread_pairs 6).length = (6 + 1) / 2 :=
  ⟨(C2_generic_fallback 6 (by decide) (by decide)).1,
   (C2_generic_fallback 6 (by decide) (by decide)).2.1⟩

/-- C10: for every positive integer n, the non-negative page indices
appearing across all pairs returned by `get_imposition_order n` are
exactly 0, 1, …, n-1, each occurring exactly once, and the same holds for
the index components of `get_spread_pairs n`. -/
theorem C10_page_coverage (n : ℕ) (hpos : 0 < n) :
    ((get_imposition_order n).flatMap pairIdxs).Perm (natsToInts (List.range n)) ∧
    ((get_spread_pairs n).flatMap (fun t => pairIdxs (t.1, t.2.1))).Perm
      (natsToInts (List.range n)) := by
  by_cases h : n = 1 ∨ n = 2 ∨ n = 4 ∨ n = 8
  · rcases h with h | h | h | h <;> subst h <;> exact ⟨by decide, by decide⟩
  · rw [get_imposition_order_of_other n h, get_spread_pairs_of_other n h,
      seqPairs_entries n, seqSpreads_entries n]
    exact ⟨List.Perm.refl _, List.Perm.refl _⟩

theorem C10_page_coverage_witness :
    ((get_imposition_order 6).flatMap pairIdxs).Perm (natsToInts (List.range 6)) :=
  (C10_page_coverage 6 (by decide)).1

/-! ## Claim C5: the hex color parser -/

/-- Whether Python `int(·, 16)` accepts a character as a hex digit. -/
def isHexDigit (c : Char) : Bool := (hexDigitVal c).isSome

/-- The numeric value of a hex digit (0 for non-digits). -/
def hv (c : Char) : ℕ := (hexDigitVal c).getD 0

theorem lstripHash_hex {l : List Char} (h : ∀ c ∈ l, isHexDigit c = true) :
    lstripHash ('#' :: l) = l := by
  unfold lstripHash
  rw [List.dropWhile_cons, if_pos (by simp)]
  cases l with
  | nil => rfl
  | cons c t =>
    have h2 := h c (List.mem_cons_self c t)
    have hc : c ≠ '#' := by
      intro hcc
      subst hcc
      revert h2
      decide
    rw [List.dropWhile_cons, if_neg (by simpa using hc)]

theorem hex_to_rgb_hash (l : List Char) (h : ∀ c ∈ l, isHexDigit c = true) :
    hex_to_rgb ⟨'#' :: l⟩ = (do
      let r ← int16 (((expand3 l).drop 0).take 2)
      let g ← int16 (((expand3 l).drop 2).take 2)
      let b ← int16 (((expand3 l).drop 4).take 2)
      pure (((r : ℕ) : ℤ), ((g : ℕ) : ℤ), ((b : ℕ) : ℤ))) := by
  unfold hex_to_rgb
  rw [show (⟨'#' :: l⟩ : String).data = '#' :: l from rfl, lstripHash_hex h]

theorem int16_some {l : List Char} (h : ∀ c ∈ l, isHexDigit c = true)
    (hne : l ≠ []) : (int16 l).isSome := by
  unfold int16
  rw [if_neg hne]
  suffices hgen : ∀ acc : ℕ,
      (l.foldlM (fun acc c => (hexDigitVal c).map (fun d => 16 * acc + d)) acc).isSome from
    hgen 0
  clear hne
  induction l with
  | nil => intro acc; rfl
  | cons c t ih =>
    intro acc
    have hc := h c (List.mem_cons_self c t)
    obtain ⟨d, hd⟩ := Option.isSome_iff_exists.mp (by simpa [isHexDigit] using hc)
    rw [List.foldlM_cons, hd]
    exact ih (fun x hx => h x (List.mem_cons_of_mem c hx)) (16 * acc + d)

theorem int16_one {a : Char} (ha : isHexDigit a = true) :
    int16 [a] = some (hv a) := by
  obtain ⟨d, hd⟩ := Option.isSome_iff_exists.mp (by simpa [isHexDigit] using ha)
  simp [int16, List.foldlM_cons, hd, hv]

theorem int16_two {a b : Char} (ha : isHexDigit a = true)
    (hb : isHexDigit b = true) :
    int16 [a, b] = some (16 * hv a + hv b) := by
  obtain ⟨d, hd⟩ := Option.isSome_iff_exists.mp (by simpa [isHexDigit] using ha)
  obtain ⟨e, he⟩ := Option.isSome_iff_exists.mp (by simpa [isHexDigit] using hb)
  simp [int16, List.foldlM_cons, hd, he, hv]

/-- C5 counterexample: the 5-hex-digit string "#12345" is accepted by
`hex_to_rgb` (with the blue channel read from the single digit '5'),
whereas the claim requires every input whose stripped length is neither 3
nor 6 to fail with `InvalidColor`. -/
theorem C5_counterexample :
    hex_to_rgb "#12345" = some (18, 52, 5) ∧ hex_to_rgb "#12345" ≠ none := by
  refine ⟨by decide, by decide⟩

theorem hexDigitVal_none {c : Char} (hc : isHexDigit c = false) :
    hexDigitVal c = none := by
  cases hd : hexDigitVal c with
  | none => rfl
  | some d => rw [isHexDigit, hd] at hc; simp at hc

theorem int16_two_none {a b : Char}
    (h : hexDigitVal a = none ∨ hexDigitVal b = none) : int16 [a, b] = none := by
  rcases h with h | h
  · simp [int16, List.foldlM_cons, h]
  · rcases hda : hexDigitVal a with _ | d <;> simp [int16, List.foldlM_cons, hda, h]

/-- C5 (amended): `hex_to_rgb` accepts 3-digit hex strings (each digit
expanded, value 17·d per channel) and 6-digit hex strings; but it also
accepts 5-digit strings (blue read from the single remaining digit) and
strings of six-or-more hex digits (characters beyond the sixth ignored);
on hex-digit content it fails exactly for stripped lengths 0, 1, 2 and 4,
and a 6-character alphanumeric string containing a non-hex-digit
character fails. -/
theorem C5_amended :
    (∀ l : List Char, (∀ c ∈ l, isHexDigit c = true) →
      ((hex_to_rgb ⟨'#' :: l⟩).isSome = true ↔
        ¬(l.length = 0 ∨ l.length = 1 ∨ l.length = 2 ∨ l.length = 4))) ∧
    (∀ a b c : Char, isHexDigit a = true → isHexDigit b = true →
      isHexDigit c = true →
      hex_to_rgb ⟨'#' :: [a, b, c]⟩
        = some (((17 * hv a : ℕ) : ℤ), ((17 * hv b : ℕ) : ℤ), ((17 * hv c : ℕ) : ℤ))) ∧
    (∀ a b c d e f : Char, (∀ x ∈ [a, b, c, d, e, f], isHexDigit x = true) →
      hex_to_rgb ⟨'#' :: [a, b, c, d, e, f]⟩
        = some (((16 * hv a + hv b : ℕ) : ℤ), ((16 * hv c + hv d : ℕ) : ℤ),
            ((16 * hv e + hv f : ℕ) : ℤ))) ∧
    (∀ a b c d e : Char, (∀ x ∈ [a, b, c, d, e], isHexDigit x = true) →
      hex_to_rgb ⟨'#' :: [a, b, c, d, e]⟩
        = some (((16 * hv a + hv b : ℕ) : ℤ), ((16 * hv c + hv d : ℕ) : ℤ),
            ((hv e : ℕ) : ℤ))) ∧
    (∀ l : List Char, (∀ c ∈ l, isHexDigit c = true) → 6 ≤ l.length →
      hex_to_rgb ⟨'#' :: l⟩ = hex_to_rgb ⟨'#' :: l.take 6⟩) ∧
    (∀ l : List Char, l.length = 6 → (∀ c ∈ l, c.isAlphanum = true) →
      (∃ c ∈ l, isHexDigit c = false) → hex_to_rgb ⟨'#' :: l⟩ = none) := by
  refine ⟨?_, ?_, ?_, ?_, ?_, ?_⟩
  · intro l h
    rw [hex_to_rgb_hash l h]
    by_cases h3 : l.length = 3
    · obtain ⟨a, b, c, rfl⟩ := List.length_eq_three.mp h3
      have ha := h a (by simp)
      have hb := h b (by simp)
      have hc := h c (by simp)
      rw [show expand3 [a, b, c] = [a, a, b, b, c, c] from rfl]
      rw [show (([a, a, b, b, c, c].drop 0).take 2) = [a, a] from rfl,
        show (([a, a, b, b, c, c].drop 2).take 2) = [b, b] from rfl,
        show (([a, a, b, b, c, c].drop 4).take 2) = [c, c] from rfl,
        int16_two ha ha, int16_two hb hb, int16_two hc hc]
      constructor
      · intro _
        simp
      · intro _
        rfl
    · have he : expand3 l = l := by unfold expand3; rw [if_neg h3]
      rw [he]
      by_cases h5 : 5 ≤ l.length
      · have hx : ∀ k : ℕ, ∀ c ∈ (l.drop k).take 2, isHexDigit c = true :=
          fun k c hc => h c (List.mem_of_mem_drop (List.mem_of_mem_take hc))
        have s0 : (l.drop 0).take 2 ≠ [] := by
          rw [ne_eq, List.take_eq_nil_iff, List.drop_eq_nil_iff]
          push_neg
          omega
        have s2 : (l.drop 2).take 2 ≠ [] := by
          rw [ne_eq, List.take_eq_nil_iff, List.drop_eq_nil_iff]
          push_neg
          omega
        have s4 : (l.drop 4).take 2 ≠ [] := by
          rw [ne_eq, List.take_eq_nil_iff, List.drop_eq_nil_iff]
          push_neg
          omega
        obtain ⟨r0, hr0⟩ := Option.isSome_iff_exists.mp (int16_some (hx 0) s0)
        obtain ⟨r2, hr2⟩ := Option.isSome_iff_exists.mp (int16_some (hx 2) s2)
        obtain ⟨r4, hr4⟩ := Option.isSome_iff_exists.mp (int16_some (hx 4) s4)
        constructor
        · intro _
          omega
        · intro _
          rw [hr0, hr2, hr4]
          rfl
      · have hlen : l.length = 0 ∨ l.length = 1 ∨ l.length = 2 ∨ l.length = 4 := by
          omega
        have s4 : (l.drop 4).take 2 = [] := by
          rw [List.take_eq_nil_iff, List.drop_eq_nil_iff]
          right
          omega
        have hnone : int16 ((l.drop 4).take 2) = none := by rw [s4]; rfl
        constructor
        · intro hs
          exfalso
          rcases hX : int16 ((l.drop 0).take 2) with _ | r
          · rw [hX] at hs; simp at hs
          · rcases hY : int16 ((l.drop 2).take 2) with _ | g
            · rw [hX, hY] at hs; simp at hs
            · rw [hX, hY, hnone] at hs; simp at hs
        · intro hcon
          exact absurd hlen hcon
  · intro a b c ha hb hc
    rw [hex_to_rgb_hash [a, b, c] (by
      intro x hx
      simp only [List.mem_cons, List.not_mem_nil, or_false] at hx
      rcases hx with rfl | rfl | rfl <;> assumption)]
    rw [show expand3 [a, b, c] = [a, a, b, b, c, c] from rfl,
      show (([a, a, b, b, c, c].drop 0).take 2) = [a, a] from rfl,
      show (([a, a, b, b, c, c].drop 2).take 2) = [b, b] from rfl,
      show (([a, a, b, b, c, c].drop 4).take 2) = [c, c] from rfl,
      int16_two ha ha, int16_two hb hb, int16_two hc hc]
    show some ((((16 * hv a + hv a : ℕ) : ℤ)), (((16 * hv b + hv b : ℕ) : ℤ)),
        (((16 * hv c + hv c : ℕ) : ℤ))) = _
    simp only [Option.some.injEq, Prod.mk.injEq]
    refine ⟨by push_cast; ring, by push_cast; ring, by push_cast; ring⟩
  · intro a b c d e f h
    have ha := h a (by simp)
    have hb := h b (by simp)
    have hc := h c (by simp)
    have hd := h d (by simp)
    have he := h e (by simp)
    have hf := h f (by simp)
    rw [hex_to_rgb_hash [a, b, c, d, e, f] h]
    rw [show expand3 [a, b, c, d, e, f] = [a, b, c, d, e, f] from rfl,
      show (([a, b, c, d, e, f].drop 0).take 2) = [a, b] from rfl,
      show (([a, b, c, d, e, f].drop 2).take 2) = [c, d] from rfl,
      show (([a, b, c, d, e, f].drop 4).take 2) = [e, f] from rfl,
      int16_two ha hb, int16_two hc hd, int16_two he hf]
    rfl
  · intro a b c d e h
    have ha := h a (by simp)
    have hb := h b (by simp)
    have hc := h c (by simp)
    have hd := h d (by simp)
    have he := h e (by simp)
    rw [hex_to_rgb_hash [a, b, c, d, e] h]
    rw [show expand3 [a, b, c, d, e] = [a, b, c, d, e] from rfl,
      show (([a, b, c, d, e].drop 0).take 2) = [a, b] from rfl,
      show (([a, b, c, d, e].drop 2).take 2) = [c, d] from rfl,
      show (([a, b, c, d, e].drop 4).take 2) = [e] from rfl,
      int16_two ha hb, int16_two hc hd, int16_one he]
    rfl
  · intro l h h6
    have hx6 : ∀ c ∈ l.take 6, isHexDigit c = true :=
      fun c hc => h c (List.mem_of_mem_take hc)
    rw [hex_to_rgb_hash l h, hex_to_rgb_hash (l.take 6) hx6]
    have he1 : expand3 l = l := by unfold expand3; rw [if_neg (by omega)]
    have he2 : expand3 (l.take 6) = l.take 6 := by
      unfold expand3
      rw [if_neg (by rw [List.length_take]; omega)]
    rw [he1, he2]
    have e0 : ((l.take 6).drop 0).take 2 = (l.drop 0).take 2 := by
      rw [List.drop_take, List.take_take]
      norm_num
    have e2 : ((l.take 6).drop 2).take 2 = (l.drop 2).take 2 := by
      rw [List.drop_take, List.take_take]
      norm_num
    have e4 : ((l.take 6).drop 4).take 2 = (l.drop 4).take 2 := by
      rw [List.drop_take, List.take_take]
      norm_num
    rw [e0, e2, e4]
  · intro l hlen halpha hbad
    have hne : ∀ c ∈ l, c ≠ '#' := by
      intro c hc hceq
      subst hceq
      have := halpha '#' hc
      revert this
      decide
    have hstrip : lstripHash ('#' :: l) = l := by
      unfold lstripHash
      rw [List.dropWhile_cons, if_pos (by simp)]
      cases l with
      | nil => rfl
      | cons c t =>
        rw [List.dropWhile_cons,
          if_neg (by simpa using hne c (List.mem_cons_self c t))]
    unfold hex_to_rgb
    rw [show (⟨'#' :: l⟩ : String).data = '#' :: l from rfl, hstrip]
    have he : expand3 l = l := by unfold expand3; rw [if_neg (by omega)]
    rw [he]
    dsimp only
    obtain ⟨a, b, c, d, e, f, rfl⟩ :
        ∃ a b c d e f, l = [a, b, c, d, e, f] := by
      rcases l with _ | ⟨a, l⟩
      · simp at hlen
      rcases l with _ | ⟨b, l⟩
      · simp at hlen
      rcases l with _ | ⟨c, l⟩
      · simp at hlen
      rcases l with _ | ⟨d, l⟩
      · simp at hlen
      rcases l with _ | ⟨e, l⟩
      · simp at hlen
      rcases l with _ | ⟨f, l⟩
      · simp at hlen
      rcases l with _ | ⟨g, l⟩
      · exact ⟨a, b, c, d, e, f, rfl⟩
      · simp at hlen
    obtain ⟨c0, hc0m, hc0⟩ := hbad
    rw [show (([a, b, c, d, e, f].drop 0).take 2) = [a, b] from rfl,
      show (([a, b, c, d, e, f].drop 2).take 2) = [c, d] from rfl,
      show (([a, b, c, d, e, f].drop 4).take 2) = [e, f] from rfl]
    simp only [List.mem_cons, List.not_mem_nil, or_false] at hc0m
    rcases hc0m with rfl | rfl | rfl | rfl | rfl | rfl
    · rw [int16_two_none (Or.inl (hexDigitVal_none hc0))]
      rfl
    · rw [int16_two_none (Or.inr (hexDigitVal_none hc0))]
      rfl
    · rw [int16_two_none (Or.inl (hexDigitVal_none hc0))]
      rcases hX : int16 [a, b] with _ | r
      · rfl
      · rfl
    · rw [int16_two_none (Or.inr (hexDigitVal_none hc0))]
      rcases hX : int16 [a, b] with _ | r
      · rfl
      · rfl
    · rw [int16_two_none (Or.inl (hexDigitVal_none hc0))]
      rcases hX : int16 [a, b] with _ | r
      · rfl
      · rcases hY : int16 [c, d] with _ | g
        · rfl
        · rfl
    · rw [int16_two_none (Or.inr (hexDigitVal_none hc0))]
      rcases hX : int16 [a, b] with _ | r
      · rfl
      · rcases hY : int16 [c, d] with _ | g
        · rfl
        · rfl

theorem C5_amended_witness :
    hex_to_rgb "#ff00aa" = some (((16 * hv 'f' + hv 'f' : ℕ) : ℤ),
      ((16 * hv '0' + hv '0' : ℕ) : ℤ), ((16 * hv 'a' + hv 'a' : ℕ) : ℤ)) :=
  C5_amended.2.2.1 'f' 'f' '0' '0' 'a' 'a' (by decide)

/-! ## Claim C6: percentage-to-pixel conversion -/

/-- C6 counterexample: the conversion the compositor actually performs,
`int(33 / 100 * 420) = 138`, differs from the claimed
`round(33 / 100 * 420) = 139`. -/
theorem C6_counterexample :
    pctPx 33 420 ≠ pctPxSpec 33 420 ∧ pctPx 33 420 = 138 ∧
      pctPxSpec 33 420 = 139 := by
  have h1 : pctPx 33 420 = 138 := by
    unfold pctPx
    exact pyInt_eq_of_nonneg (by norm_num) (by norm_num) (by norm_num)
  have h2 : pctPxSpec 33 420 = 139 := by
    unfold pctPxSpec
    rw [Int.floor_eq_iff]
    norm_num
  refine ⟨by rw [h1, h2]; decide, h1, h2⟩

/-- C6 (amended): every percentage-to-pixel conversion used by the
compositor computes `int(value / 100 * extent)`, i.e. truncation (floor,
for non-negative values), not rounding to the nearest integer. -/
theorem C6_truncation (v : ℚ) (e : ℕ) (hv2 : 0 ≤ v) :
    pctPx v e = ⌊v / 100 * e⌋ := by
  unfold pctPx
  exact pyInt_of_nonneg (by positivity)

theorem C6_truncation_witness : pctPx 50 296 = ⌊(50 : ℚ) / 100 * (296 : ℕ)⌋ :=
  C6_truncation 50 296 (by norm_num)

/-! ## Claim C9: the pages/page_count invariant -/

/-- C9 counterexample: constructing a `BrochureData` with `page_count = 1`
and two initial pages leaves `len(pages) = 2`: `__post_init__` never
truncates, violating `len(pages) == page_count`. -/
theorem C9_counterexample :
    (postInit 1 [blankPage, blankPage]).length = 2 ∧ (2 : ℕ) ≠ 1 := by
  constructor
  · show ([blankPage, blankPage] ++
      List.replicate ((1 : ℤ) - 2).toNat blankPage).length = 2
    rfl
  · decide

/-- C9 (amended): construction (`__post_init__`) only appends blank pages,
so it guarantees `len(pages) = max(page_count, len(initial pages))` —
the invariant `len(pages) == page_count` holds after construction only
when the initial list is not longer than `page_count`; every
`page_count` change (`_on_page_count_change`) restores the invariant
exactly, appending blank pages or truncating from the end. -/
theorem C9_amended :
    (∀ (c : ℤ) (ps : List PageData),
      ((postInit c ps).length : ℤ) = max c (ps.length : ℤ) ∧
      (postInit c ps).take ps.length = ps ∧
      (postInit c ps).drop ps.length
        = List.replicate (c - ps.length).toNat blankPage) ∧
    (∀ (n : ℕ) (ps : List PageData),
      (onPageCountChange n ps).length = n ∧
      (ps.length ≤ n →
        onPageCountChange n ps = ps ++ List.replicate (n - ps.length) blankPage) ∧
      (n ≤ ps.length → onPageCountChange n ps = ps.take n)) := by
  constructor
  · intro c ps
    refine ⟨?_, ?_, ?_⟩
    · unfold postInit
      rw [List.length_append, List.length_replicate]
      omega
    · unfold postInit
      exact List.take_left ps _
    · unfold postInit
      rw [List.drop_append_of_le_length (le_refl _), List.drop_length,
        List.nil_append]
  · intro n ps
    unfold onPageCountChange
    by_cases h : ps.length ≤ n
    · rw [if_pos h]
      refine ⟨?_, fun _ => rfl, fun h2 => ?_⟩
      · rw [List.length_append, List.length_replicate]
        omega
      · have he : n = ps.length := le_antisymm h2 h
        subst he
        simp
    · rw [if_neg h]
      refine ⟨?_, fun h2 => absurd h2 h, fun _ => rfl⟩
      rw [List.length_take]
      omega

theorem C9_amended_witness :
    onPageCountChange 1 [blankPage, blankPage] = [blankPage] ∧
    ((postInit 3 [blankPage]).length : ℤ) = max 3 ((1 : ℕ) : ℤ) := by
  constructor
  · have h := ((C9_amended.2 1 [blankPage, blankPage]).2.2) (by norm_num)
    rw [h]
    rfl
  · have h := (C9_amended.1 3 [blankPage]).1
    simpa using h

theorem hex_to_rgb_nonneg {s : String} {c : Color} (h : hex_to_rgb s = some c) :
    0 ≤ c.1 ∧ 0 ≤ c.2.1 ∧ 0 ≤ c.2.2 := by
  unfold hex_to_rgb at h
  obtain ⟨r, hr, h⟩ := Option.bind_eq_some.mp h
  obtain ⟨g, hg, h⟩ := Option.bind_eq_some.mp h
  obtain ⟨b, hb, h⟩ := Option.bind_eq_some.mp h
  simp only [Option.pure_def, Option.some.injEq] at h
  subst h
  exact ⟨Int.natCast_nonneg r, Int.natCast_nonneg g, Int.natCast_nonneg b⟩

/-! ## Claim C8: gradient backgrounds -/

theorem gradientImg_vertical (c1 c2 : Color) (W H : ℕ) (px py : ℤ) :
    (gradientImg c1 c2 "vertical" W H).pix px py
      = lerpColor c1 c2 ((py : ℚ) / (H : ℚ)) := by
  unfold gradientImg
  dsimp only
  rw [if_pos rfl]

theorem gradientImg_horizontal (c1 c2 : Color) (W H : ℕ) (px py : ℤ) :
    (gradientImg c1 c2 "horizontal" W H).pix px py
      = lerpColor c1 c2 ((px : ℚ) / (W : ℚ)) := by
  unfold gradientImg
  dsimp only
  rw [if_neg (by decide), if_pos rfl]

theorem gradientImg_diagonal (c1 c2 : Color) (W H : ℕ) (px py : ℤ) :
    (gradientImg c1 c2 "diagonal" W H).pix px py
      = lerpColor c1 c2 (((px : ℚ) + (py : ℚ)) / ((W : ℚ) + (H : ℚ))) := by
  unfold gradientImg
  dsimp only
  rw [if_neg (by decide), if_neg (by decide), if_pos rfl]

theorem lerpChan_zero (a b : ℤ) : lerpChan a b 0 = a := by
  unfold lerpChan
  rw [mul_zero, add_zero, pyInt_intCast]

theorem lerpColor_zero (c1 c2 : Color) : lerpColor c1 c2 0 = c1 := by
  unfold lerpColor
  rw [lerpChan_zero, lerpChan_zero, lerpChan_zero]

/-- Interpolation at the last scan position `(M-1)/M` lands within one
unit of the second endpoint, provided the span `M` is at least the
channel difference. -/
theorem lerpChan_last {a b M : ℤ} (hM : 0 < M) (ha : 0 ≤ a) (hb : 0 ≤ b)
    (hd : |b - a| ≤ M) :
    |lerpChan a b (((M - 1 : ℤ) : ℚ) / ((M : ℤ) : ℚ)) - b| ≤ 1 := by
  have hMQ : (0 : ℚ) < ((M : ℤ) : ℚ) := by exact_mod_cast hM
  have hM1 : (1 : ℚ) ≤ ((M : ℤ) : ℚ) := by exact_mod_cast hM
  have hv2 : (a : ℚ) + ((b : ℚ) - (a : ℚ)) * (((M - 1 : ℤ) : ℚ) / ((M : ℤ) : ℚ))
      = (b : ℚ) - ((b : ℚ) - (a : ℚ)) / ((M : ℤ) : ℚ) := by
    field_simp
    ring
  unfold lerpChan
  rw [hv2]
  rw [abs_le] at hd
  rcases le_total a b with hab | hab
  · have h0 : (0 : ℚ) ≤ ((b : ℚ) - (a : ℚ)) / ((M : ℤ) : ℚ) := by
      apply div_nonneg _ (le_of_lt hMQ)
      exact_mod_cast sub_nonneg.mpr hab
    have h1 : ((b : ℚ) - (a : ℚ)) / ((M : ℤ) : ℚ) ≤ 1 := by
      rw [div_le_one hMQ]
      exact_mod_cast hd.2
    have h2 : ((b : ℚ) - (a : ℚ)) / ((M : ℤ) : ℚ) ≤ (b : ℚ) - (a : ℚ) := by
      apply div_le_self _ hM1
      exact_mod_cast sub_nonneg.mpr hab
    have haq : (0 : ℚ) ≤ (a : ℚ) := by exact_mod_cast ha
    have hvnn : (0 : ℚ) ≤ (b : ℚ) - ((b : ℚ) - (a : ℚ)) / ((M : ℤ) : ℚ) := by
      linarith
    rw [pyInt_of_nonneg hvnn]
    have hub : ⌊(b : ℚ) - ((b : ℚ) - (a : ℚ)) / ((M : ℤ) : ℚ)⌋ ≤ b := by
      calc ⌊(b : ℚ) - ((b : ℚ) - (a : ℚ)) / ((M : ℤ) : ℚ)⌋
          ≤ ⌊(b : ℚ)⌋ := Int.floor_le_floor (by linarith)
        _ = b := Int.floor_intCast b
    have hlb : b - 1 ≤ ⌊(b : ℚ) - ((b : ℚ) - (a : ℚ)) / ((M : ℤ) : ℚ)⌋ := by
      apply Int.le_floor.mpr
      push_cast
      linarith
    rw [abs_le]
    omega
  · have h0 : (0 : ℚ) ≤ ((a : ℚ) - (b : ℚ)) / ((M : ℤ) : ℚ) := by
      apply div_nonneg _ (le_of_lt hMQ)
      exact_mod_cast sub_nonneg.mpr hab
    have h1 : ((a : ℚ) - (b : ℚ)) / ((M : ℤ) : ℚ) ≤ 1 := by
      rw [div_le_one hMQ]
      have : a - b ≤ M := by omega
      exact_mod_cast this
    have hbq : (0 : ℚ) ≤ (b : ℚ) := by exact_mod_cast hb
    have hv3 : (b : ℚ) - ((b : ℚ) - (a : ℚ)) / ((M : ℤ) : ℚ)
        = (b : ℚ) + ((a : ℚ) - (b : ℚ)) / ((M : ℤ) : ℚ) := by
      ring
    rw [hv3]
    have hvnn : (0 : ℚ) ≤ (b : ℚ) + ((a : ℚ) - (b : ℚ)) / ((M : ℤ) : ℚ) := by
      linarith
    rw [pyInt_of_nonneg hvnn]
    have hub : ⌊(b : ℚ) + ((a : ℚ) - (b : ℚ)) / ((M : ℤ) : ℚ)⌋ ≤ b + 1 := by
      calc ⌊(b : ℚ) + ((a : ℚ) - (b : ℚ)) / ((M : ℤ) : ℚ)⌋
          ≤ ⌊((b + 1 : ℤ) : ℚ)⌋ := Int.floor_le_floor (by push_cast; linarith)
        _ = b + 1 := Int.floor_intCast _
    have hlb : b ≤ ⌊(b : ℚ) + ((a : ℚ) - (b : ℚ)) / ((M : ℤ) : ℚ)⌋ := by
      apply Int.le_floor.mpr
      linarith
    rw [abs_le]
    omega

/-- C8 counterexample: for a vertical gradient from `#000000` to
`#ffffff` on a 1x2 image, the bottom-row pixel is `(127,127,127)` — 128
units away from colorB, far outside the claimed one-unit tolerance. -/
theorem C8_counterexample :
    create_gradient 1 2 "#000000" "#ffffff" "vertical"
      = some (gradientImg (0, 0, 0) (255, 255, 255) "vertical" 1 2) ∧
    ((gradientImg (0, 0, 0) (255, 255, 255) "vertical" 1 2).pix 0 1).1 = 127 ∧
    ¬(|(127 : ℤ) - 255| ≤ 1) := by
  refine ⟨?_, ?_, by decide⟩
  · unfold create_gradient
    rw [show hex_to_rgb "#000000" = some (0, 0, 0) from by decide,
      show hex_to_rgb "#ffffff" = some (255, 255, 255) from by decide]
    rfl
  · rw [gradientImg_vertical]
    show lerpChan 0 255 ((1 : ℚ) / ((2 : ℕ) : ℚ)) = 127
    unfold lerpChan
    apply pyInt_eq_of_nonneg
    · norm_num
    · norm_num
    · norm_num

/-- C8 (amended): the top row of a vertical gradient equals colorA
exactly and the bottom row is within one unit per channel of colorB
provided the height is at least each channel difference (for small
heights the bottom row can be arbitrarily far from colorB); the same
holds for columns of a horizontal gradient with the width in place of
the height; the interpolation parameter is row/height (vertical),
column/width (horizontal), and (col+row)/(width+height) (diagonal). -/
theorem C8_gradient_amended (c1s c2s : String) (c1 c2 : Color) (W H : ℕ)
    (hc1 : hex_to_rgb c1s = some c1) (hc2 : hex_to_rgb c2s = some c2) :
    (∀ direction, create_gradient W H c1s c2s direction
        = some (gradientImg c1 c2 direction W H)) ∧
    (∀ px : ℤ, (gradientImg c1 c2 "vertical" W H).pix px 0 = c1) ∧
    (0 < H → (H : ℤ) ≥ |c2.1 - c1.1| → (H : ℤ) ≥ |c2.2.1 - c1.2.1| →
      (H : ℤ) ≥ |c2.2.2 - c1.2.2| → ∀ px : ℤ,
      |((gradientImg c1 c2 "vertical" W H).pix px ((H : ℤ) - 1)).1 - c2.1| ≤ 1 ∧
      |((gradientImg c1 c2 "vertical" W H).pix px ((H : ℤ) - 1)).2.1 - c2.2.1| ≤ 1 ∧
      |((gradientImg c1 c2 "vertical" W H).pix px ((H : ℤ) - 1)).2.2 - c2.2.2| ≤ 1) ∧
    (∀ py : ℤ, (gradientImg c1 c2 "horizontal" W H).pix 0 py = c1) ∧
    (0 < W → (W : ℤ) ≥ |c2.1 - c1.1| → (W : ℤ) ≥ |c2.2.1 - c1.2.1| →
      (W : ℤ) ≥ |c2.2.2 - c1.2.2| → ∀ py : ℤ,
      |((gradientImg c1 c2 "horizontal" W H).pix ((W : ℤ) - 1) py).1 - c2.1| ≤ 1 ∧
      |((gradientImg c1 c2 "horizontal" W H).pix ((W : ℤ) - 1) py).2.1 - c2.2.1| ≤ 1 ∧
      |((gradientImg c1 c2 "horizontal" W H).pix ((W : ℤ) - 1) py).2.2 - c2.2.2| ≤ 1) ∧
    (∀ px py : ℤ, (gradientImg c1 c2 "diagonal" W H).pix px py
        = lerpColor c1 c2 (((px : ℚ) + (py : ℚ)) / ((W : ℚ) + (H : ℚ)))) := by
  obtain ⟨ha1, ha2, ha3⟩ := hex_to_rgb_nonneg hc1
  obtain ⟨hb1, hb2, hb3⟩ := hex_to_rgb_nonneg hc2
  have hcast : ∀ n : ℕ, 0 < n →
      (((n : ℤ) - 1 : ℤ) : ℚ) / ((n : ℕ) : ℚ)
        = (((n : ℤ) - 1 : ℤ) : ℚ) / (((n : ℤ) : ℤ) : ℚ) := by
    intro n _
    norm_num
  refine ⟨?_, ?_, ?_, ?_, ?_, ?_⟩
  · intro direction
    unfold create_gradient
    rw [hc1, hc2]
    rfl
  · intro px
    rw [gradientImg_vertical]
    norm_num [lerpColor_zero]
  · intro hH hd1 hd2 hd3 px
    rw [gradientImg_vertical, hcast H hH]
    exact ⟨lerpChan_last (by exact_mod_cast hH) ha1 hb1 hd1,
      lerpChan_last (by exact_mod_cast hH) ha2 hb2 hd2,
      lerpChan_last (by exact_mod_cast hH) ha3 hb3 hd3⟩
  · intro py
    rw [gradientImg_horizontal]
    norm_num [lerpColor_zero]
  · intro hW hd1 hd2 hd3 py
    rw [gradientImg_horizontal, hcast W hW]
    exact ⟨lerpChan_last (by exact_mod_cast hW) ha1 hb1 hd1,
      lerpChan_last (by exact_mod_cast hW) ha2 hb2 hd2,
      lerpChan_last (by exact_mod_cast hW) ha3 hb3 hd3⟩
  · intro px py
    exact gradientImg_diagonal c1 c2 W H px py

theorem C8_gradient_amended_witness :
    (gradientImg (0, 0, 0) (255, 255, 255) "vertical" 300 300).pix 5 0
      = (0, 0, 0) :=
  (C8_gradient_amended "#000000" "#ffffff" (0, 0, 0) (255, 255, 255) 300 300
    (by decide) (by decide)).2.1 5

/-! ## Claim C7: image-element failure semantics -/

theorem foldlM_images_isSome (C : Collab) (W H : ℕ) :
    ∀ l : List Elem, (∀ x ∈ l, ∃ i, x = Elem.image i) → ∀ img : Img,
      ∃ img2, l.foldlM (renderElem C W H) img = some img2 := by
  intro l
  induction l with
  | nil =>
    intro _ img
    exact ⟨img, rfl⟩
  | cons a t ih =>
    intro h img
    obtain ⟨i, hi⟩ := h a (List.mem_cons_self a t)
    subst hi
    have hrest := ih (fun x hx => h x (List.mem_cons_of_mem _ hx))
      (renderImageElem C W H img i)
    obtain ⟨img2, h2⟩ := hrest
    refine ⟨img2, ?_⟩
    rw [List.foldlM_cons]
    show (renderElem C W H img (Elem.image i)) >>= _ = _
    rw [show renderElem C W H img (Elem.image i)
        = some (renderImageElem C W H img i) from rfl]
    simpa using h2

/-- C7: image-element failures are element-local: an element with
neither path nor data is a silent no-op, an element whose bytes fail to
decode leaves the accumulated image unchanged, and a page whose elements
are all image elements always renders to an image (no exception
escapes). -/
theorem C7_image_failures :
    (∀ (C : Collab) (W H : ℕ) (img : Img) (e : ImageElement),
      e.image_path = none → e.image_data = none →
      renderImageElem C W H img e = img) ∧
    (∀ (C : Collab) (W H : ℕ) (img : Img) (e : ImageElement) (d : List ℕ),
      e.image_path = none → e.image_data = some d → C.decode d = none →
      renderImageElem C W H img e = img) ∧
    (∀ (C : Collab) (W H : ℕ) (p : PageData) (bg : Color),
      p.background_gradient = none →
      hex_to_rgb p.background_color = some bg →
      p.shape_elements = [] → p.text_elements = [] →
      ∃ img2, render_page C W H p = some img2) := by
  refine ⟨?_, ?_, ?_⟩
  · intro C W H img e hp hd
    unfold renderImageElem loadSource pathOk dataOk
    rw [hp, hd]
  · intro C W H img e d hp hd hdec
    unfold renderImageElem loadSource pathOk dataOk
    rw [hp, hd]
    by_cases hd0 : d = []
    · simp [hd0]
    · simp [hd0, hdec]
  · intro C W H p bg hgrad hbg hs ht
    have hgather : gather p = p.image_elements.map Elem.image := by
      rw [gather, hs, ht]
      simp
    have hmem : ∀ x ∈ renderOrder p, ∃ i, x = Elem.image i := by
      intro x hx
      rw [renderOrder] at hx
      have hx2 := (List.mem_insertionSort layerLE).mp hx
      rw [hgather] at hx2
      obtain ⟨i, _, hi⟩ := List.mem_map.mp hx2
      exact ⟨i, hi.symm⟩
    obtain ⟨img2, h2⟩ := foldlM_images_isSome C W H (renderOrder p) hmem
      ⟨(W : ℤ), (H : ℤ), fun _ _ => bg⟩
    refine ⟨img2, ?_⟩
    unfold render_page
    rw [hgrad]
    dsimp only
    rw [hbg]
    simpa using h2

theorem C7_image_failures_witness :
    renderImageElem trivCollab 100 100 ⟨100, 100, fun _ _ => (9, 9, 9)⟩ {}
      = ⟨100, 100, fun _ _ => (9, 9, 9)⟩ :=
  C7_image_failures.1 trivCollab 100 100 ⟨100, 100, fun _ _ => (9, 9, 9)⟩ {}
    rfl rfl

/-! ## Claim C3: layer ordering -/

theorem filter_orderedInsert_of_ne (k : ℤ) (a : Elem) (l : List Elem)
    (ha : layerOf a ≠ k) :
    (List.orderedInsert layerLE a l).filter (fun e => layerOf e == k)
      = l.filter (fun e => layerOf e == k) := by
  induction l with
  | nil => simp [List.orderedInsert, ha]
  | cons b t ih =>
    rw [List.orderedInsert]
    by_cases hab : layerLE a b
    · rw [if_pos hab]
      simp [List.filter_cons, ha]
    · rw [if_neg hab]
      simp only [List.filter_cons, ih]

theorem filter_orderedInsert_of_eq (k : ℤ) (a : Elem) (l : List Elem)
    (ha : layerOf a = k) :
    (List.orderedInsert layerLE a l).filter (fun e => layerOf e == k)
      = a :: l.filter (fun e => layerOf e == k) := by
  induction l with
  | nil => simp [List.orderedInsert, ha]
  | cons b t ih =>
    rw [List.orderedInsert]
    by_cases hab : layerLE a b
    · rw [if_pos hab]
      simp [List.filter_cons, ha]
    · rw [if_neg hab]
      have hb : layerOf b ≠ k := by
        subst ha
        intro hbk
        exact hab (le_of_eq hbk.symm)
      simp [List.filter_cons, hb, ih]

theorem filter_insertionSort_layer (k : ℤ) (l : List Elem) :
    (List.insertionSort layerLE l).filter (fun e => layerOf e == k)
      = l.filter (fun e => layerOf e == k) := by
  induction l with
  | nil => rfl
  | cons a t ih =>
    rw [List.insertionSort]
    by_cases ha : layerOf a = k
    · rw [filter_orderedInsert_of_eq k a _ ha, ih]
      simp [List.filter_cons, ha]
    · rw [filter_orderedInsert_of_ne k a _ ha, ih]
      simp [List.filter_cons, ha]

theorem mixChan_full (d s : ℤ) : mixChan d s 255 = s := by
  unfold mixChan
  rw [show (255 : ℤ) - 255 = 0 from rfl, mul_zero, add_zero]
  exact Int.mul_ediv_cancel s (by norm_num)

theorem blend_opaque (d s : Color) : blend d s 255 = s := by
  unfold blend
  rw [mixChan_full, mixChan_full, mixChan_full]

theorem shapeTemp_rect_eq (C : Collab) (s : ShapeElement)
    (fill outline : Option RGBA) (w h tW tH : ℤ)
    (hrect : s.shape_type = "rectangle") :
    shapeTemp C s fill outline w h tW tH = ⟨tW, tH, fun tx ty =>
      if 0 ≤ tx ∧ tx < tW ∧ 0 ≤ ty ∧ ty < tH ∧
          pyFloorDiv tW 2 - pyFloorDiv w 2 ≤ tx ∧
          tx ≤ pyFloorDiv tW 2 + pyFloorDiv w 2 ∧
          pyFloorDiv tH 2 - pyFloorDiv h 2 ≤ ty ∧
          ty ≤ pyFloorDiv tH 2 + pyFloorDiv h 2 then
        match outline with
        | some o =>
          if tx < (pyFloorDiv tW 2 - pyFloorDiv w 2) + s.stroke_width ∨
              (pyFloorDiv tW 2 + pyFloorDiv w 2) - s.stroke_width < tx ∨
              ty < (pyFloorDiv tH 2 - pyFloorDiv h 2) + s.stroke_width ∨
              (pyFloorDiv tH 2 + pyFloorDiv h 2) - s.stroke_width < ty then o
          else fill.getD clearRGBA
        | none => fill.getD clearRGBA
      else clearRGBA⟩ := by
  unfold shapeTemp
  rw [if_pos hrect]

theorem rect_paste_pix (C : Collab) (s : ShapeElement) (img : Img) (c : Color)
    (x y w h : ℤ) (hrect : s.shape_type = "rectangle")
    (hw : 1 ≤ w) (hh : 1 ≤ h) (px py : ℤ)
    (hpx1 : x - pyFloorDiv w 2 ≤ px) (hpx2 : px ≤ x + pyFloorDiv w 2)
    (hpy1 : y - pyFloorDiv h 2 ≤ py) (hpy2 : py ≤ y + pyFloorDiv h 2) :
    (paste img
      (shapeTemp C s (some (c, 255)) none w h
        (w + max w h * 2) (h + max w h * 2))
      (x - pyFloorDiv (w + max w h * 2) 2)
      (y - pyFloorDiv (h + max w h * 2) 2)).pix px py = c := by
  have hfd : ∀ a : ℤ, pyFloorDiv a 2 = a / 2 :=
    fun a => Int.fdiv_eq_ediv a (by norm_num)
  simp only [hfd] at hpx1 hpx2 hpy1 hpy2
  rw [shapeTemp_rect_eq C s (some (c, 255)) none _ _ _ _ hrect]
  unfold paste
  dsimp only
  rw [if_pos (by simp only [hfd]; omega)]
  rw [if_pos (by simp only [hfd]; omega)]
  exact blend_opaque _ c

theorem renderShape_rect (C : Collab) (W H : ℕ) (img : Img) (s : ShapeElement)
    (c : Color) (hrect : s.shape_type = "rectangle") (hrot : s.rotation = 0)
    (hsw : s.stroke_width = 0) (hop : s.opacity = 1)
    (hft : s.fill_color ≠ "transparent")
    (hc : hex_to_rgb s.fill_color = some c) :
    ∃ img2, renderShape C W H img s = some img2 ∧
      img2.w = img.w ∧ img2.h = img.h ∧
      (∀ px py : ℤ, rectRegion W H s px py → img2.pix px py = c) := by
  have h255 : pyInt (s.opacity * 255) = 255 := by
    rw [hop, one_mul, show ((255 : ℚ)) = ((255 : ℤ) : ℚ) from by norm_num,
      pyInt_intCast]
  have hrgba : hex_to_rgba s.fill_color s.opacity = some (c, 255) := by
    unfold hex_to_rgba
    rw [hc, Option.map_some', h255]
  have key : renderShape C W H img s = some (paste img
      (shapeTemp C s (some (c, 255)) none (pctPx s.width W) (pctPx s.height H)
        (pctPx s.width W + max (pctPx s.width W) (pctPx s.height H) * 2)
        (pctPx s.height H + max (pctPx s.width W) (pctPx s.height H) * 2))
      (pctPx s.x W - pyFloorDiv
        (pctPx s.width W + max (pctPx s.width W) (pctPx s.height H) * 2) 2)
      (pctPx s.y H - pyFloorDiv
        (pctPx s.height H + max (pctPx s.width W) (pctPx s.height H) * 2) 2)) := by
    unfold renderShape
    rw [if_neg hft, hrgba, hsw, hrot]
    rfl
  refine ⟨_, key, rfl, rfl, ?_⟩
  intro px py hreg
  obtain ⟨hw1, hh1, hx1, hx2, hy1, hy2⟩ := hreg
  exact rect_paste_pix C s img c (pctPx s.x W) (pctPx s.y H)
    (pctPx s.width W) (pctPx s.height H) hrect hw1 hh1 px py hx1 hx2 hy1 hy2

/-- C3: `render_page` gathers the elements of all three collections into
one sequence and renders them in ascending `layer_index` order with ties
kept in a stable relative order; consequently, for two overlapping fully
opaque rectangles with layer_index 0 and 1, every pixel in their overlap
shows the layer-1 shape's fill color. -/
theorem C3_layer_order :
    (∀ p : PageData,
      (renderOrder p).Perm (gather p) ∧
      List.Sorted layerLE (renderOrder p) ∧
      (∀ k : ℤ, (renderOrder p).filter (fun e => layerOf e == k)
          = (gather p).filter (fun e => layerOf e == k))) ∧
    (∀ (C : Collab) (W H : ℕ) (p : PageData) (s0 s1 : ShapeElement)
      (bg c0 c1 : Color) (px py : ℤ),
      p.background_gradient = none →
      hex_to_rgb p.background_color = some bg →
      p.shape_elements = [s0, s1] →
      p.image_elements = [] →
      p.text_elements = [] →
      s0.layer_index = 0 → s1.layer_index = 1 →
      s0.shape_type = "rectangle" → s1.shape_type = "rectangle" →
      s0.rotation = 0 → s1.rotation = 0 →
      s0.stroke_width = 0 → s1.stroke_width = 0 →
      s0.opacity = 1 → s1.opacity = 1 →
      s0.fill_color ≠ "transparent" → s1.fill_color ≠ "transparent" →
      hex_to_rgb s0.fill_color = some c0 →
      hex_to_rgb s1.fill_color = some c1 →
      rectRegion W H s0 px py → rectRegion W H s1 px py →
      0 ≤ px → px < W → 0 ≤ py → py < H →
      ∃ img, render_page C W H p = some img ∧ img.pix px py = c1) := by
  constructor
  · intro p
    refine ⟨List.perm_insertionSort layerLE (gather p),
      List.sorted_insertionSort layerLE (gather p),
      fun k => filter_insertionSort_layer k (gather p)⟩
  · intro C W H p s0 s1 bg c0 c1 px py hgrad hbg hs hi ht hl0 hl1
      hrect0 hrect1 hrot0 hrot1 hsw0 hsw1 hop0 hop1 hft0 hft1 hc0 hc1
      hreg0 hreg1 _ _ _ _
    have hg : gather p = [Elem.shape s0, Elem.shape s1] := by
      rw [gather, hs, hi, ht]
      simp
    have hord : renderOrder p = [Elem.shape s0, Elem.shape s1] := by
      rw [renderOrder, hg]
      rw [show List.insertionSort layerLE [Elem.shape s0, Elem.shape s1]
          = List.orderedInsert layerLE (Elem.shape s0)
              (List.orderedInsert layerLE (Elem.shape s1) []) from rfl]
      rw [show List.orderedInsert layerLE (Elem.shape s1) []
          = [Elem.shape s1] from rfl]
      rw [List.orderedInsert, if_pos]
      show layerOf (Elem.shape s0) ≤ layerOf (Elem.shape s1)
      rw [show layerOf (Elem.shape s0) = s0.layer_index from rfl,
        show layerOf (Elem.shape s1) = s1.layer_index from rfl, hl0, hl1]
      decide
    obtain ⟨img1, h1eq, h1w, h1h, _⟩ := renderShape_rect C W H
      ⟨(W : ℤ), (H : ℤ), fun _ _ => bg⟩ s0 c0 hrect0 hrot0 hsw0 hop0 hft0 hc0
    obtain ⟨img2, h2eq, _, _, h2pix⟩ := renderShape_rect C W H img1 s1 c1
      hrect1 hrot1 hsw1 hop1 hft1 hc1
    refine ⟨img2, ?_, h2pix px py hreg1⟩
    unfold render_page
    rw [hgrad]
    dsimp only
    rw [hbg, hord]
    simp only [Option.map_some', Option.bind_eq_bind, Option.some_bind,
      List.foldlM_cons, List.foldlM_nil]
    rw [show renderElem C W H ⟨(W : ℤ), (H : ℤ), fun _ _ => bg⟩ (Elem.shape s0)
        = renderShape C W H ⟨(W : ℤ), (H : ℤ), fun _ _ => bg⟩ s0 from rfl,
      h1eq]
    simp only [Option.bind_eq_bind, Option.some_bind]
    rw [show renderElem C W H img1 (Elem.shape s1)
        = renderShape C W H img1 s1 from rfl, h2eq]
    rfl

theorem C3_layer_order_witness :
    ∃ img, render_page trivCollab 100 100
      { background_color := "#ffffff",
        shape_elements := [
          { shape_type := "rectangle", x := 50, y := 50, width := 50,
            height := 50, fill_color := "#ff0000", stroke_width := 0,
            opacity := 1, rotation := 0, layer_index := 0 },
          { shape_type := "rectangle", x := 50, y := 50, width := 20,
            height := 20, fill_color := "#00ff00", stroke_width := 0,
            opacity := 1, rotation := 0, layer_index := 1 }] }
      = some img ∧ img.pix 50 50 = (0, 255, 0) := by
  have e50 : pctPx 50 100 = 50 := by
    unfold pctPx
    exact pyInt_eq_of_nonneg (by norm_num) (by norm_num) (by norm_num)
  have e20 : pctPx 20 100 = 20 := by
    unfold pctPx
    exact pyInt_eq_of_nonneg (by norm_num) (by norm_num) (by norm_num)
  refine C3_layer_order.2 trivCollab 100 100 _ _ _ (255, 255, 255)
    (255, 0, 0) (0, 255, 0) 50 50 rfl (by decide) rfl rfl rfl rfl rfl
    rfl rfl rfl rfl rfl rfl rfl rfl (by decide) (by decide) (by decide)
    (by decide) ?_ ?_ (by decide) (by decide) (by decide) (by decide)
  · unfold rectRegion
    refine ⟨?_, ?_, ?_, ?_, ?_, ?_⟩
    · show (1 : ℤ) ≤ pctPx 50 100
      rw [e50]
      decide
    · show (1 : ℤ) ≤ pctPx 50 100
      rw [e50]
      decide
    · show pctPx 50 100 - pyFloorDiv (pctPx 50 100) 2 ≤ 50
      rw [e50]
      decide
    · show (50 : ℤ) ≤ pctPx 50 100 + pyFloorDiv (pctPx 50 100) 2
      rw [e50]
      decide
    · show pctPx 50 100 - pyFloorDiv (pctPx 50 100) 2 ≤ 50
      rw [e50]
      decide
    · show (50 : ℤ) ≤ pctPx 50 100 + pyFloorDiv (pctPx 50 100) 2
      rw [e50]
      decide
  · unfold rectRegion
    refine ⟨?_, ?_, ?_, ?_, ?_, ?_⟩
    · show (1 : ℤ) ≤ pctPx 20 100
      rw [e20]
      decide
    · show (1 : ℤ) ≤ pctPx 20 100
      rw [e20]
      decide
    · show pctPx 50 100 - pyFloorDiv (pctPx 20 100) 2 ≤ 50
      rw [e50, e20]
      decide
    · show (50 : ℤ) ≤ pctPx 50 100 + pyFloorDiv (pctPx 20 100) 2
      rw [e50, e20]
      decide
    · show pctPx 50 100 - pyFloorDiv (pctPx 20 100) 2 ≤ 50
      rw [e50, e20]
      decide
    · show (50 : ℤ) ≤ pctPx 50 100 + pyFloorDiv (pctPx 20 100) 2
      rw [e50, e20]
      decide

/-! ## Claim C4: text layout -/

theorem splitNL_ne_nil (l : List Char) : splitNL l ≠ [] := by
  cases l with
  | nil => simp [splitNL]
  | cons c rest =>
    by_cases hc : c = '\n'
    · simp [splitNL, hc]
    · rw [splitNL, if_neg hc]
      cases hsp : splitNL rest with
      | nil => simp
      | cons g gs => simp

theorem mkPlaces_cons (meas : List Char → ℤ × ℤ) (a : String) (tW : ℤ)
    (l : List Char) (rest : List (List Char)) (cy : ℤ) :
    mkPlaces meas a tW (l :: rest) cy
      = ⟨l, if a = "center" then pyFloorDiv (tW - (meas l).1) 2
            else if a = "right" then tW - 20 - (meas l).1 else 20,
          cy, (meas l).1, (meas l).2⟩
        :: mkPlaces meas a tW rest (cy + (meas l).2 + 5) := rfl

theorem mkPlaces_length (meas : List Char → ℤ × ℤ) (a : String) (tW : ℤ) :
    ∀ (ls : List (List Char)) (cy : ℤ),
      (mkPlaces meas a tW ls cy).length = ls.length := by
  intro ls
  induction ls with
  | nil => intro cy; rfl
  | cons l rest ih =>
    intro cy
    rw [mkPlaces_cons, List.length_cons, List.length_cons, ih]

theorem mkPlaces_ty_head (meas : List Char → ℤ × ℤ) (a : String) (tW : ℤ)
    (l : List Char) (ls : List (List Char)) (cy : ℤ) :
    ((mkPlaces meas a tW (l :: ls) cy).getD 0 dfltPlace).ty = cy := rfl

theorem mkPlaces_ty_step (meas : List Char → ℤ × ℤ) (a : String) (tW : ℤ) :
    ∀ (ls : List (List Char)) (cy : ℤ) (i : ℕ),
      i + 1 < (mkPlaces meas a tW ls cy).length →
      ((mkPlaces meas a tW ls cy).getD (i + 1) dfltPlace).ty
        = ((mkPlaces meas a tW ls cy).getD i dfltPlace).ty
          + ((mkPlaces meas a tW ls cy).getD i dfltPlace).lh + 5 := by
  intro ls
  induction ls with
  | nil =>
    intro cy i h
    simp [mkPlaces] at h
  | cons l rest ih =>
    intro cy i h
    rw [mkPlaces_length] at h
    cases i with
    | zero =>
      rcases rest with _ | ⟨l2, rest2⟩
      · simp at h
      · rfl
    | succ j =>
      have h2 : j + 1 < (mkPlaces meas a tW rest (cy + (meas l).2 + 5)).length := by
        rw [mkPlaces_length]
        simp at h
        omega
      have hrec := ih (cy + (meas l).2 + 5) j h2
      rw [mkPlaces_cons]
      simpa only [List.getD_cons_succ] using hrec

theorem mkPlaces_tx (meas : List Char → ℤ × ℤ) (a : String) (tW : ℤ) :
    ∀ (ls : List (List Char)) (cy : ℤ) (pl : LinePlace),
      pl ∈ mkPlaces meas a tW ls cy →
      pl.tx = (if a = "center" then pyFloorDiv (tW - pl.lw) 2
               else if a = "right" then tW - 20 - pl.lw else 20) := by
  intro ls
  induction ls with
  | nil =>
    intro cy pl h
    simp [mkPlaces] at h
  | cons l rest ih =>
    intro cy pl h
    rw [mkPlaces_cons] at h
    rcases List.mem_cons.mp h with h | h
    · subst h
      rfl
    · exact ih _ pl h

theorem textLayout_places (meas : List Char → ℤ × ℤ) (W H : ℕ)
    (e : TextElement) :
    (textLayout meas W H e).places
      = mkPlaces meas e.alignment ((textLayout meas W H e).maxW + 40)
          (splitNL e.text) 20 := rfl

theorem textLayout_tempW (meas : List Char → ℤ × ℤ) (W H : ℕ)
    (e : TextElement) :
    (textLayout meas W H e).tempW = (textLayout meas W H e).maxW + 40 := rfl

theorem pyFloorDiv_two_eq (a : ℤ) : pyFloorDiv a 2 = a / 2 :=
  Int.fdiv_eq_ediv a (by norm_num)

/-- C4 counterexample: with width 296 and a measured line width of 50,
a left-aligned single-line element at x=50% (pixel column 148) draws its
line starting at column 123 = x - maxWidth//2, not at x as the claim
states. -/
theorem C4_counterexample :
    (textLayout (fun l => ((10 * l.length : ℤ), 12)) 296 420
      { text := "Hello".data, x := 50, y := 50, alignment := "left" }).x
      = 148 ∧
    (textLayout (fun l => ((10 * l.length : ℤ), 12)) 296 420
      { text := "Hello".data, x := 50, y := 50, alignment := "left" }).tempW
      = 90 ∧
    ((textLayout (fun l => ((10 * l.length : ℤ), 12)) 296 420
      { text := "Hello".data, x := 50, y := 50, alignment := "left" }).places.map
        LinePlace.tx) = [20] ∧
    148 - pyFloorDiv 90 2 + 20 = 123 ∧ (123 : ℤ) ≠ 148 := by
  refine ⟨?_, by decide, by decide, by decide, by decide⟩
  show pctPx (50 : ℚ) 296 = 148
  unfold pctPx
  exact pyInt_eq_of_nonneg (by norm_num) (by norm_num) (by norm_num)

/-- C4 (amended): lines are stacked vertically with a fixed 5-pixel gap
and the whole block is pasted centered on the element's position (both
axes, within half a pixel); within the block each line follows the
element's alignment, so on the page a left-aligned line starts at
x - maxLineWidth//2 (not at x), a centered line is centered on x, and a
right-aligned line ends at x + maxLineWidth - maxLineWidth//2 (not at x).
The spec's width-296 "Hello\nWorld" centered scenario holds: both lines
are centered on column 148 (within half a pixel) and, when the two lines
measure the same height, their row bands are symmetric about row 210. -/
theorem C4_text_layout_amended :
    (∀ (meas : List Char → ℤ × ℤ) (W H : ℕ) (e : TextElement)
      (L : TextLayout), L = textLayout meas W H e →
      (L.places ≠ [] ∧ (L.places.getD 0 dfltPlace).ty = 20) ∧
      (∀ i : ℕ, i + 1 < L.places.length →
        (L.places.getD (i + 1) dfltPlace).ty
          = (L.places.getD i dfltPlace).ty
            + (L.places.getD i dfltPlace).lh + 5) ∧
      |2 * layoutPasteY L + L.tempH - 2 * L.y| ≤ 1 ∧
      (e.alignment = "left" → ∀ pl ∈ L.places,
        layoutPasteX L + pl.tx = L.x - pyFloorDiv L.maxW 2) ∧
      (e.alignment = "center" → ∀ pl ∈ L.places,
        |2 * (layoutPasteX L + pl.tx) + pl.lw - 2 * L.x| ≤ 1) ∧
      (e.alignment = "right" → ∀ pl ∈ L.places,
        layoutPasteX L + pl.tx + pl.lw
          = L.x + L.maxW - pyFloorDiv L.maxW 2)) ∧
    (∀ (meas : List Char → ℤ × ℤ) (e : TextElement) (w1 w2 lh : ℤ)
      (L : TextLayout),
      e.text = "Hello\nWorld".data → e.x = 50 → e.y = 50 →
      e.alignment = "center" →
      meas "Hello".data = (w1, lh) → meas "World".data = (w2, lh) →
      L = textLayout meas 296 420 e →
      L.x = 148 ∧
      (∀ pl ∈ L.places,
        |2 * (layoutPasteX L + pl.tx) + pl.lw - 2 * 148| ≤ 1) ∧
      (∀ k : ℤ,
        (layoutPasteY L + (L.places.getD 0 dfltPlace).ty + k)
          + (layoutPasteY L + (L.places.getD 1 dfltPlace).ty + (lh - 1 - k))
          = 2 * 210)) := by
  have hpart1 : ∀ (meas : List Char → ℤ × ℤ) (W H : ℕ) (e : TextElement)
      (L : TextLayout), L = textLayout meas W H e →
      (L.places ≠ [] ∧ (L.places.getD 0 dfltPlace).ty = 20) ∧
      (∀ i : ℕ, i + 1 < L.places.length →
        (L.places.getD (i + 1) dfltPlace).ty
          = (L.places.getD i dfltPlace).ty
            + (L.places.getD i dfltPlace).lh + 5) ∧
      |2 * layoutPasteY L + L.tempH - 2 * L.y| ≤ 1 ∧
      (e.alignment = "left" → ∀ pl ∈ L.places,
        layoutPasteX L + pl.tx = L.x - pyFloorDiv L.maxW 2) ∧
      (e.alignment = "center" → ∀ pl ∈ L.places,
        |2 * (layoutPasteX L + pl.tx) + pl.lw - 2 * L.x| ≤ 1) ∧
      (e.alignment = "right" → ∀ pl ∈ L.places,
        layoutPasteX L + pl.tx + pl.lw
          = L.x + L.maxW - pyFloorDiv L.maxW 2) := by
    intro meas W H e L hL
    subst hL
    refine ⟨⟨?_, ?_⟩, ?_, ?_, ?_, ?_, ?_⟩
    · rw [textLayout_places]
      intro hcon
      have hlen := congrArg List.length hcon
      rw [mkPlaces_length] at hlen
      simp only [List.length_nil] at hlen
      exact splitNL_ne_nil e.text (List.length_eq_zero.mp hlen)
    · rw [textLayout_places]
      rcases hsp : splitNL e.text with _ | ⟨l, ls⟩
      · exact absurd hsp (splitNL_ne_nil e.text)
      · exact mkPlaces_ty_head meas e.alignment _ l ls 20
    · rw [textLayout_places]
      exact mkPlaces_ty_step meas e.alignment _ (splitNL e.text) 20
    · unfold layoutPasteY
      rw [pyFloorDiv_two_eq, abs_le]
      omega
    · intro hal pl hpl
      rw [textLayout_places] at hpl
      have htx := mkPlaces_tx meas e.alignment _ (splitNL e.text) 20 pl hpl
      rw [hal, if_neg (by decide), if_neg (by decide)] at htx
      rw [htx]
      unfold layoutPasteX
      rw [textLayout_tempW]
      simp only [pyFloorDiv_two_eq]
      omega
    · intro hal pl hpl
      rw [textLayout_places] at hpl
      have htx := mkPlaces_tx meas e.alignment _ (splitNL e.text) 20 pl hpl
      rw [hal, if_pos rfl] at htx
      rw [htx]
      unfold layoutPasteX
      rw [textLayout_tempW]
      simp only [pyFloorDiv_two_eq]
      rw [abs_le]
      omega
    · intro hal pl hpl
      rw [textLayout_places] at hpl
      have htx := mkPlaces_tx meas e.alignment _ (splitNL e.text) 20 pl hpl
      rw [hal, if_neg (by decide), if_pos rfl] at htx
      rw [htx]
      unfold layoutPasteX
      rw [textLayout_tempW]
      simp only [pyFloorDiv_two_eq]
      omega
  refine ⟨hpart1, ?_⟩
  intro meas e w1 w2 lh L htext hx hy hal hm1 hm2 hL
  have hsplit : splitNL e.text = ["Hello".data, "World".data] := by
    rw [htext]
    decide
  have hx148 : L.x = 148 := by
    rw [hL]
    show pctPx e.x 296 = 148
    rw [hx]
    unfold pctPx
    exact pyInt_eq_of_nonneg (by norm_num) (by norm_num) (by norm_num)
  have hy210 : L.y = 210 := by
    rw [hL]
    show pctPx e.y 420 = 210
    rw [hy]
    unfold pctPx
    exact pyInt_eq_of_nonneg (by norm_num) (by norm_num) (by norm_num)
  have htH : L.tempH = 2 * lh + 45 := by
    rw [hL]
    show (((splitNL e.text).map meas).map Prod.snd).sum
        + (((splitNL e.text).length : ℤ) - 1) * 5 + 40 = 2 * lh + 45
    rw [hsplit]
    simp only [List.map_cons, List.map_nil, hm1, hm2, List.sum_cons,
      List.sum_nil, List.length_cons, List.length_nil]
    push_cast
    ring
  have hty0 : (L.places.getD 0 dfltPlace).ty = 20 := by
    rw [hL, textLayout_places, hsplit]
    rfl
  have hty1 : (L.places.getD 1 dfltPlace).ty = 20 + lh + 5 := by
    rw [hL, textLayout_places, hsplit, mkPlaces_cons, mkPlaces_cons]
    simp only [List.getD_cons_succ, List.getD_cons_zero, hm1]
  refine ⟨hx148, ?_, ?_⟩
  · have hcen := (hpart1 meas 296 420 e L hL).2.2.2.2.1 hal
    intro pl hpl
    have := hcen pl hpl
    rwa [hx148] at this
  · intro k
    unfold layoutPasteY
    rw [hy210, htH, pyFloorDiv_two_eq, hty0, hty1]
    omega

theorem C4_text_layout_amended_witness :
    (textLayout (fun l => ((10 * l.length : ℤ), 12)) 296 420
      { text := "Hello\nWorld".data, x := 50, y := 50,
        alignment := "center" }).x = 148 :=
  (C4_text_layout_amended.2 (fun l => ((10 * l.length : ℤ), 12))
    { text := "Hello\nWorld".data, x := 50, y := 50, alignment := "center" }
    50 50 12 _ rfl rfl rfl rfl (by decide) (by decide) rfl).1

end Brochure
